import Mathlib

/-!
Verification development for the record-filter stage of the drmemtrace
trace-processing pipeline (clients/drcachesim/tools/filter/record_filter.cpp).

The embedding follows the source closely.  External collaborators that the
source file only calls into (the trace-entry type enumeration from
trace_entry.h, the memref counter from raw2trace_shared.h, the writer
objects) are modelled at their interface boundary, as noted on each
definition.  Per-shard mutable state is threaded explicitly; the sink is
modelled as the list of records it received, and the global success flag is
threaded as a Bool alongside the shard state.
-/

namespace drmemtrace

/-- Modelled from the spec: the record type tag of trace_entry.h (not under
src/).  The spec describes records as tagged values whose tag distinguishes
instruction fetches (several control-flow subtypes), maybe-fetched and
not-fetched instructions, memory accesses, encoding-byte records, markers
and bookkeeping records; only the distinctions below are consulted by the
filter code. -/
inductive trace_type_t where
  | TRACE_TYPE_READ
  | TRACE_TYPE_WRITE
  | TRACE_TYPE_INSTR
  | TRACE_TYPE_INSTR_DIRECT_JUMP
  | TRACE_TYPE_INSTR_INDIRECT_JUMP
  | TRACE_TYPE_INSTR_CONDITIONAL_JUMP
  | TRACE_TYPE_INSTR_DIRECT_CALL
  | TRACE_TYPE_INSTR_INDIRECT_CALL
  | TRACE_TYPE_INSTR_RETURN
  | TRACE_TYPE_INSTR_MAYBE_FETCH
  | TRACE_TYPE_INSTR_NO_FETCH
  | TRACE_TYPE_ENCODING
  | TRACE_TYPE_MARKER
  | TRACE_TYPE_THREAD
  | TRACE_TYPE_THREAD_EXIT
  | TRACE_TYPE_PID
  | TRACE_TYPE_HEADER
  | TRACE_TYPE_FOOTER
deriving DecidableEq

/-- The fixed-size trace record: type tag, secondary field (the marker
subtype for markers), and address/value payload (addr_t, a 64-bit value,
modelled as Nat with explicit reduction mod 2^64 where wraparound can
occur). -/
structure trace_entry_t where
  type : trace_type_t
  size : Nat
  addr : Nat
deriving DecidableEq

/-- Modelled from the spec: type_is_instr of trace_entry.h (not under src/)
holds for the fetched-instruction subtypes and not for maybe-fetched or
not-fetched instructions. -/
def type_is_instr (t : trace_type_t) : Bool :=
  match t with
  | .TRACE_TYPE_INSTR => true
  | .TRACE_TYPE_INSTR_DIRECT_JUMP => true
  | .TRACE_TYPE_INSTR_INDIRECT_JUMP => true
  | .TRACE_TYPE_INSTR_CONDITIONAL_JUMP => true
  | .TRACE_TYPE_INSTR_DIRECT_CALL => true
  | .TRACE_TYPE_INSTR_INDIRECT_CALL => true
  | .TRACE_TYPE_INSTR_RETURN => true
  | _ => false

/-- From the source (anonymous namespace of record_filter.cpp):
instruction-like means a fetched instruction or the maybe-fetched or
not-fetched variants. -/
def is_any_instr_type (t : trace_type_t) : Bool :=
  type_is_instr t || t == .TRACE_TYPE_INSTR_MAYBE_FETCH ||
    t == .TRACE_TYPE_INSTR_NO_FETCH

/-- Modelled from the spec: marker subtype constants of trace_entry.h (not
under src/).  Only distinctness of the four subtypes consulted by the
filter matters. -/
def TRACE_MARKER_TYPE_FILETYPE : Nat := 9

def TRACE_MARKER_TYPE_CHUNK_FOOTER : Nat := 21

def TRACE_MARKER_TYPE_RECORD_ORDINAL : Nat := 22

def TRACE_MARKER_TYPE_FILTER_ENDPOINT : Nat := 23

/-- Modelled from the spec: the bimodal filtered/warmup filetype flag bit
(offline file type enumeration, not under src/); a single fixed flag bit. -/
def OFFLINE_FILE_TYPE_BIMODAL_FILTERED_WARMUP : Nat := 4096

/-- Modelled from the spec: the fixed literal chunk-component naming first
part (TRACE_CHUNK_PREFIX of trace_entry.h, not under src/). -/
def TRACE_CHUNK_PREFIX_VAL : String := "chunk."

/-- 2^64, the modulus of addr_t arithmetic. -/
def two64 : Nat := 18446744073709551616

/-- 64-bit wrapping subtraction, as performed on the addr field of a
record-ordinal marker. -/
def sub64 (a b : Nat) : Nat := (a + two64 - b % two64) % two64

/-- setw(4) with fill 0: pad the decimal representation to at least four
digits, as in open_new_chunk. -/
def pad4 (n : Nat) : String :=
  let s := toString n
  String.mk (List.replicate (4 - s.length) '0') ++ s

/-- The archive component name for a chunk ordinal, as built by
open_new_chunk. -/
def chunk_name (ordinal : Nat) : String := TRACE_CHUNK_PREFIX_VAL ++ pad4 ordinal

/-- Lookup in the delayed-encodings map (unordered_map keyed by address);
an absent key reads as the empty sequence, matching the default-constructed
entry of operator[]. -/
def lookup_de (m : List (Nat × List trace_entry_t)) (a : Nat) : List trace_entry_t :=
  match m.find? (fun p => p.1 == a) with
  | some p => p.2
  | none => []

/-- Erase a key from the delayed-encodings map. -/
def erase_de (m : List (Nat × List trace_entry_t)) (a : Nat) :
    List (Nat × List trace_entry_t) :=
  m.filter (fun p => p.1 != a)

/-- Assign a key in the delayed-encodings map (operator[] assignment:
overwrite any prior entry). -/
def set_de (m : List (Nat × List trace_entry_t)) (a : Nat) (v : List trace_entry_t) :
    List (Nat × List trace_entry_t) :=
  erase_de m a ++ [(a, v)]

/-- The per-shard state of record_filter_t (per_shard_t of record_filter.h,
whose fields are all assigned in record_filter.cpp).  The sink is modelled
by the list of records it received plus the list of archive component names
opened; the writer objects themselves are external.  sigma is the state
type of the opaque per-filter per-shard data. -/
structure per_shard_t (σ : Type) where
  enabled : Bool
  error : String
  output_path : String
  has_archive : Bool
  chunk_ordinal : Nat
  input_entry_count : Nat
  output_entry_count : Nat
  removed_from_prev_chunk : Nat
  last_encoding : List trace_entry_t
  delayed_encodings : List (Nat × List trace_entry_t)
  filter_shard_data : List σ
  output : List trace_entry_t
  opened_components : List String
deriving DecidableEq

/-- The configuration of a record_filter_t run together with the modelled
interfaces of its external collaborators: the ordered filter predicates
(each a pure decision plus state update on its own per-shard state), the
stop timestamp, the memref counter (Modelled from the spec: the logical
unit contribution of a record, memref_counter_t of raw2trace_shared.h, not
under src/), the sink write-success oracle and the archive
open-new-component result oracle (empty string = success). -/
structure record_filter_cfg (σ : Type) where
  output_dir : String
  filters : List (trace_entry_t → σ → Bool × σ)
  stop_timestamp : Nat
  entry_memref_count : trace_entry_t → Nat
  write_ok : trace_entry_t → Bool
  open_component_err : String → String

/-- The synthetic boundary marker written when the stop-timestamp gate
fires. -/
def filter_boundary_entry : trace_entry_t :=
  { type := .TRACE_TYPE_MARKER, size := TRACE_MARKER_TYPE_FILTER_ENDPOINT, addr := 0 }

/-- record_filter_t::write_trace_entry: on write success append to the sink
and bump the output counter; on failure set the shard error and flip the
global success flag.  Returns (shard, success flag, return value). -/
def write_trace_entry {σ : Type} (cfg : record_filter_cfg σ) (shard : per_shard_t σ)
    (success : Bool) (entry : trace_entry_t) : per_shard_t σ × Bool × Bool :=
  if cfg.write_ok entry then
    ({ shard with
        output := shard.output ++ [entry],
        output_entry_count := shard.output_entry_count + 1 }, success, true)
  else
    ({ shard with error := "Failed to write to output file " ++ shard.output_path },
      false, false)

/-- record_filter_t::write_trace_entries: write each entry in order,
stopping at the first failure. -/
def write_trace_entries {σ : Type} (cfg : record_filter_cfg σ) :
    per_shard_t σ → Bool → List trace_entry_t → per_shard_t σ × Bool × Bool
  | shard, success, [] => (shard, success, true)
  | shard, success, e :: rest =>
    let r := write_trace_entry cfg shard success e
    if r.2.2 = true then write_trace_entries cfg r.1 r.2.1 rest else r

/-- record_filter_t::open_new_chunk: ask the archive writer to open the
component named after the current chunk ordinal; on success record the
component as opened, otherwise return the error string. -/
def open_new_chunk {σ : Type} (cfg : record_filter_cfg σ) (shard : per_shard_t σ) :
    per_shard_t σ × String :=
  let name := chunk_name shard.chunk_ordinal
  let err := cfg.open_component_err name
  if err = "" then
    ({ shard with opened_components := shard.opened_components ++ [name] }, "")
  else (shard, err)

/-- The filter-chain loop of parallel_shard_memref: every configured filter
is invoked, in order, on its own per-shard state slot, and the record is
kept only when all accept; rejection by one filter does not skip later
filters. -/
def run_filters {σ : Type} (entry : trace_entry_t) :
    List (trace_entry_t → σ → Bool × σ) → List σ → Bool × List σ
  | [], sts => (true, sts)
  | _ :: _, [] => (true, [])
  | f :: fs, st :: sts =>
    let r := f entry st
    let rest := run_filters entry fs sts
    (r.1 && rest.1, r.2 :: rest.2)

/-- The marker-rewriting section and everything after it in
parallel_shard_memref: the tail handles the post-marker dispatch on the
keep/drop decision, the encoding cache, and the final write. -/
def shard_memref_tail {σ : Type} (cfg : record_filter_cfg σ) (success : Bool)
    (per_shard : per_shard_t σ) (entry : trace_entry_t) (output : Bool) :
    per_shard_t σ × Bool × Bool :=
  if output = false then
    if is_any_instr_type entry.type = true ∧ per_shard.last_encoding ≠ [] then
      ({ per_shard with
          delayed_encodings :=
            set_de per_shard.delayed_encodings entry.addr per_shard.last_encoding,
          last_encoding := [] }, success, true)
    else (per_shard, success, true)
  else if entry.type = .TRACE_TYPE_ENCODING then
    ({ per_shard with last_encoding := per_shard.last_encoding ++ [entry] },
      success, true)
  else if is_any_instr_type entry.type = true then
    if per_shard.last_encoding ≠ [] then
      let r := write_trace_entries cfg per_shard success per_shard.last_encoding
      if r.2.2 = false then (r.1, r.2.1, false)
      else
        let sh2 := { r.1 with
            last_encoding := [],
            delayed_encodings := erase_de r.1.delayed_encodings entry.addr }
        write_trace_entry cfg sh2 r.2.1 entry
    else if lookup_de per_shard.delayed_encodings entry.addr ≠ [] then
      let r := write_trace_entries cfg per_shard success
          (lookup_de per_shard.delayed_encodings entry.addr)
      if r.2.2 = false then (r.1, r.2.1, false)
      else
        let sh2 := { r.1 with
            delayed_encodings := erase_de r.1.delayed_encodings entry.addr }
        write_trace_entry cfg sh2 r.2.1 entry
    else write_trace_entry cfg per_shard success entry
  else write_trace_entry cfg per_shard success entry

/-- The marker switch of parallel_shard_memref: filetype flag OR-in,
chunk-footer validation and chunk rotation, record-ordinal rewriting. -/
def shard_memref_marker {σ : Type} (cfg : record_filter_cfg σ) (success : Bool)
    (per_shard : per_shard_t σ) (entry : trace_entry_t) (output : Bool) :
    per_shard_t σ × Bool × Bool :=
  if entry.type = .TRACE_TYPE_MARKER then
    if entry.size = TRACE_MARKER_TYPE_FILETYPE then
      let entry2 :=
        if cfg.stop_timestamp ≠ 0 then
          { entry with addr := entry.addr ||| OFFLINE_FILE_TYPE_BIMODAL_FILTERED_WARMUP }
        else entry
      shard_memref_tail cfg success per_shard entry2 output
    else if entry.size = TRACE_MARKER_TYPE_CHUNK_FOOTER then
      if output = false then
        ({ per_shard with error := "Removing chunk footers is not supported" },
          success, false)
      else if per_shard.has_archive = false then
        ({ per_shard with error := "Chunks found in non-archive output" },
          success, false)
      else if entry.addr ≠ per_shard.chunk_ordinal then
        ({ per_shard with
            error := "Chunk ordinal mismatch: found " ++ toString entry.addr ++
              " expected " ++ toString per_shard.chunk_ordinal }, success, false)
      else
        let r := write_trace_entry cfg per_shard success entry
        if r.2.2 = false then (r.1, r.2.1, false)
        else
          let sh2 := { r.1 with chunk_ordinal := r.1.chunk_ordinal + 1 }
          let op := open_new_chunk cfg sh2
          if op.2 ≠ "" then ({ op.1 with error := op.2 }, r.2.1, false)
          else (op.1, r.2.1, true)
    else if entry.size = TRACE_MARKER_TYPE_RECORD_ORDINAL then
      if output = false then
        ({ per_shard with error := "Removing ordinal marker is not supported" },
          success, false)
      else
        let entry2 := { entry with
            addr := sub64 entry.addr per_shard.removed_from_prev_chunk }
        shard_memref_tail cfg success
          { per_shard with removed_from_prev_chunk := 0 } entry2 output
    else shard_memref_tail cfg success per_shard entry output
  else shard_memref_tail cfg success per_shard entry output

/-- The body of parallel_shard_memref after the stop-timestamp gate: the
filter chain (only while enabled), the unsupported instruction-drop check
for archive sinks, the removed-record accounting, then the marker section. -/
def shard_memref_body {σ : Type} (cfg : record_filter_cfg σ) (success : Bool)
    (per_shard : per_shard_t σ) (entry : trace_entry_t) (record_count : Nat) :
    per_shard_t σ × Bool × Bool :=
  let fr :=
    if per_shard.enabled = true then
      run_filters entry cfg.filters per_shard.filter_shard_data
    else (true, per_shard.filter_shard_data)
  let output := fr.1
  let per_shard := { per_shard with filter_shard_data := fr.2 }
  if per_shard.enabled = true ∧ output = false ∧
      is_any_instr_type entry.type = true ∧ per_shard.has_archive = true then
    ({ per_shard with
        error := "Removing instructions from archive output is not yet supported" },
      success, false)
  else
    let per_shard :=
      if per_shard.enabled = true ∧ output = false then
        { per_shard with
            removed_from_prev_chunk := per_shard.removed_from_prev_chunk + record_count }
      else per_shard
    shard_memref_marker cfg success per_shard entry output

/-- record_filter_t::parallel_shard_memref: count the input record, run the
stop-timestamp gate (one-way disable plus one synthetic boundary marker),
then the body. -/
def parallel_shard_memref {σ : Type} (cfg : record_filter_cfg σ) (success : Bool)
    (per_shard : per_shard_t σ) (last_timestamp : Nat) (input_entry : trace_entry_t) :
    per_shard_t σ × Bool × Bool :=
  let per_shard :=
    { per_shard with input_entry_count := per_shard.input_entry_count + 1 }
  let record_count := cfg.entry_memref_count input_entry
  if per_shard.enabled = true ∧ cfg.stop_timestamp ≠ 0 ∧
      cfg.stop_timestamp ≤ last_timestamp then
    let per_shard := { per_shard with enabled := false }
    let r := write_trace_entry cfg per_shard success filter_boundary_entry
    if r.2.2 = false then (r.1, r.2.1, false)
    else shard_memref_body cfg r.2.1 r.1 input_entry record_count
  else shard_memref_body cfg success per_shard input_entry record_count

/-- Process a whole per-shard record sequence, each element paired with the
last-observed stream timestamp at that record. -/
def run_shard {σ : Type} (cfg : record_filter_cfg σ) :
    per_shard_t σ → Bool → List (Nat × trace_entry_t) → per_shard_t σ × Bool
  | shard, success, [] => (shard, success)
  | shard, success, (ts, e) :: rest =>
    let r := parallel_shard_memref cfg success shard ts e
    run_shard cfg r.1 r.2.1 rest

/-- A freshly constructed per_shard_t with the default member values of
record_filter.h before registration. -/
def init_per_shard {σ : Type} (output_path : String) (is_archive : Bool) :
    per_shard_t σ :=
  { enabled := true, error := "", output_path := output_path,
    has_archive := is_archive, chunk_ordinal := 0, input_entry_count := 0,
    output_entry_count := 0, removed_from_prev_chunk := 0, last_encoding := [],
    delayed_encodings := [], filter_shard_data := [], output := [],
    opened_components := [] }

/-- The per-filter loop of parallel_shard_init_stream: push each filter
init state; a non-empty filter error string assigns the shard error and
flips the success flag, for every failing filter in order. -/
def init_filter_fold {σ : Type} :
    List (σ × String) → per_shard_t σ × Bool → per_shard_t σ × Bool
  | [], acc => acc
  | fi :: rest, acc =>
    let sh2 := { acc.1 with filter_shard_data := acc.1.filter_shard_data ++ [fi.1] }
    init_filter_fold rest
      (if fi.2 ≠ "" then
        ({ sh2 with error := "Failure in initializing filter function " ++ fi.2 },
          false)
      else (sh2, acc.2))

/-- record_filter_t::parallel_shard_init_stream together with get_writer at
its interface boundary: the writer choice itself is external; an archive
sink eagerly opens component 0 and a failure of that open is the writer
error; writer_null models a null writer pointer after get_writer.  Each
element of filter_inits is the (state, error string) pair produced by one
configured filter. -/
def parallel_shard_init_stream {σ : Type} (cfg : record_filter_cfg σ)
    (stream_name : String) (is_archive writer_null : Bool)
    (filter_inits : List (σ × String)) (success : Bool) : per_shard_t σ × Bool :=
  let sh : per_shard_t σ :=
    init_per_shard (cfg.output_dir ++ "/" ++ stream_name) is_archive
  let opened := if is_archive = true then open_new_chunk cfg sh else (sh, "")
  if opened.2 ≠ "" then
    ({ opened.1 with error := "Failure in opening writer: " ++ opened.2 }, false)
  else if writer_null = true then
    ({ opened.1 with error := "Could not open a writer for " ++ opened.1.output_path },
      false)
  else
    init_filter_fold filter_inits (opened.1, success)

/-- A record sequence is encoding-consistent when every encoding record in
it is followed, after only encoding records, by an instruction-like record
(so every emitted encoding has exactly one surviving consumer: the first
instruction-like record after it). -/
def wf_out : List trace_entry_t → Bool
  | [] => true
  | e :: rest =>
    if e.type = trace_type_t.TRACE_TYPE_ENCODING then
      match rest with
      | [] => false
      | e2 :: _ =>
        (decide (e2.type = trace_type_t.TRACE_TYPE_ENCODING) ||
          is_any_instr_type e2.type) && wf_out rest
    else wf_out rest

/-- Every record of the list is an encoding record. -/
def all_encodings (l : List trace_entry_t) : Prop :=
  ∀ e ∈ l, e.type = trace_type_t.TRACE_TYPE_ENCODING

/-- The encoding-cache state invariant of a shard: the pending slot and the
delayed-encodings map hold only encoding records, and the sink output is
encoding-consistent. -/
def wf_shard {σ : Type} (sh : per_shard_t σ) : Prop :=
  all_encodings sh.last_encoding ∧
  (∀ p ∈ sh.delayed_encodings, all_encodings p.2) ∧
  wf_out sh.output = true

/-- Positional form of encoding consistency: every encoding record is
strictly followed by an instruction-like record with only encoding records
in between. -/
def encoding_consumed (out : List trace_entry_t) : Prop :=
  ∀ i, ∀ hi : i < out.length,
    (out.get ⟨i, hi⟩).type = trace_type_t.TRACE_TYPE_ENCODING →
    ∃ j, ∃ hj : j < out.length, i < j ∧
      is_any_instr_type (out.get ⟨j, hj⟩).type = true ∧
      ∀ k, ∀ hk : k < out.length, i < k → k < j →
        (out.get ⟨k, hk⟩).type = trace_type_t.TRACE_TYPE_ENCODING

/-- The chunk bookkeeping invariant of an archive shard: the components
opened so far are exactly those named after the ordinals 0 .. chunk
ordinal, in order — strictly increasing from 0 with no gaps. -/
def archive_inv {σ : Type} (sh : per_shard_t σ) : Prop :=
  sh.has_archive = true →
  sh.opened_components = (List.range (sh.chunk_ordinal + 1)).map chunk_name

/-- The last non-empty string of a list, or the empty string. -/
def last_nonempty (l : List String) : String :=
  l.foldl (fun acc s => if s ≠ "" then s else acc) ""

/-- Concrete configuration used by witnesses: no filters, everything
succeeds. -/
def wit_cfg_keep : record_filter_cfg Unit :=
  { output_dir := "out", filters := [], stop_timestamp := 0,
    entry_memref_count := fun _ => 1, write_ok := fun _ => true,
    open_component_err := fun _ => "" }

/-- Concrete configuration with one filter that rejects every record. -/
def wit_cfg_drop : record_filter_cfg Unit :=
  { wit_cfg_keep with filters := [fun _ st => (false, st)] }

/-- Concrete configuration with one filter that rejects memory reads. -/
def wit_cfg_drop_read : record_filter_cfg Unit :=
  { wit_cfg_keep with
    filters := [fun e st => (!(e.type == trace_type_t.TRACE_TYPE_READ), st)] }

/-- Concrete configuration with a stop timestamp of 5 and a drop-all
filter. -/
def wit_cfg_gate : record_filter_cfg Unit :=
  { wit_cfg_drop with stop_timestamp := 5 }

/-- Concrete configuration with a stop timestamp of 5 and no filters. -/
def wit_cfg_gate_keep : record_filter_cfg Unit :=
  { wit_cfg_keep with stop_timestamp := 5 }

/-- Concrete configuration whose archive component opens always fail. -/
def wit_cfg_open_fail : record_filter_cfg Unit :=
  { wit_cfg_keep with open_component_err := fun _ => "zip open failed" }

/-- Concrete configuration whose sink writes always fail. -/
def wit_cfg_write_fail : record_filter_cfg Unit :=
  { wit_cfg_keep with write_ok := fun _ => false }

/-- Concrete non-archive shard state with one filter state slot. -/
def wit_shard : per_shard_t Unit :=
  { (init_per_shard "out/t" false : per_shard_t Unit) with filter_shard_data := [()] }

/-- Concrete archive shard state with one filter state slot, component 0
already opened as the writer selector does eagerly. -/
def wit_shard_archive : per_shard_t Unit :=
  { (init_per_shard "out/t.zip" true : per_shard_t Unit) with
    filter_shard_data := [()],
    opened_components := [chunk_name 0] }

/-- A concrete encoding record at address 10. -/
def wit_enc : trace_entry_t := { type := .TRACE_TYPE_ENCODING, size := 4, addr := 10 }

/-- A concrete instruction record at address 10. -/
def wit_instr : trace_entry_t := { type := .TRACE_TYPE_INSTR, size := 4, addr := 10 }

/-- A concrete memory-read record. -/
def wit_read : trace_entry_t := { type := .TRACE_TYPE_READ, size := 4, addr := 99 }

/-- A concrete record-ordinal marker with value 100. -/
def wit_ord : trace_entry_t :=
  { type := .TRACE_TYPE_MARKER, size := TRACE_MARKER_TYPE_RECORD_ORDINAL, addr := 100 }

/-- A concrete chunk-footer marker with recorded ordinal 0. -/
def wit_footer : trace_entry_t :=
  { type := .TRACE_TYPE_MARKER, size := TRACE_MARKER_TYPE_CHUNK_FOOTER, addr := 0 }

/-- The concrete witness shard with two logical units already removed
since the prior chunk. -/
def wit_shard_rm2 : per_shard_t Unit :=
  { wit_shard with removed_from_prev_chunk := 2 }

/-- The concrete witness shard that already carries a prior error
message. -/
def wit_shard_err : per_shard_t Unit :=
  { wit_shard with error := "previous error" }

/-- The concrete witness shard with one pending encoding record in the
slot. -/
def wit_shard_slot : per_shard_t Unit :=
  { wit_shard with last_encoding := [wit_enc] }

/-- The shard state after the filter-chain section of the body when the
record is kept: while enabled the filter states are replaced by their
updates, while disabled nothing changes. -/
def kept_mid {σ : Type} (cfg : record_filter_cfg σ) (sh : per_shard_t σ)
    (e : trace_entry_t) : per_shard_t σ :=
  if sh.enabled = true then
    { sh with filter_shard_data := (run_filters e cfg.filters sh.filter_shard_data).2 }
  else sh

theorem sub64_eq {a b : Nat} (hb : b ≤ a) (ha : a < two64) : sub64 a b = a - b := by
  have h1 : b % two64 = b := Nat.mod_eq_of_lt (lt_of_le_of_lt hb ha)
  have h2 : a + two64 - b = (a - b) + two64 := by omega
  rw [sub64, h1, h2, Nat.add_mod_right]
  exact Nat.mod_eq_of_lt (by omega)

theorem wte_preserves {σ : Type} (cfg : record_filter_cfg σ) (sh : per_shard_t σ)
    (s : Bool) (e : trace_entry_t) :
    (write_trace_entry cfg sh s e).1.enabled = sh.enabled ∧
    (write_trace_entry cfg sh s e).1.has_archive = sh.has_archive ∧
    (write_trace_entry cfg sh s e).1.chunk_ordinal = sh.chunk_ordinal ∧
    (write_trace_entry cfg sh s e).1.opened_components = sh.opened_components ∧
    (write_trace_entry cfg sh s e).1.filter_shard_data = sh.filter_shard_data ∧
    (write_trace_entry cfg sh s e).1.input_entry_count = sh.input_entry_count ∧
    (write_trace_entry cfg sh s e).1.last_encoding = sh.last_encoding ∧
    (write_trace_entry cfg sh s e).1.delayed_encodings = sh.delayed_encodings ∧
    (write_trace_entry cfg sh s e).1.removed_from_prev_chunk =
      sh.removed_from_prev_chunk ∧
    (write_trace_entry cfg sh s e).1.output_path = sh.output_path := by
  unfold write_trace_entry
  split <;> simp

theorem wtes_preserves {σ : Type} (cfg : record_filter_cfg σ) :
    ∀ (es : List trace_entry_t) (sh : per_shard_t σ) (s : Bool),
    (write_trace_entries cfg sh s es).1.enabled = sh.enabled ∧
    (write_trace_entries cfg sh s es).1.has_archive = sh.has_archive ∧
    (write_trace_entries cfg sh s es).1.chunk_ordinal = sh.chunk_ordinal ∧
    (write_trace_entries cfg sh s es).1.opened_components = sh.opened_components ∧
    (write_trace_entries cfg sh s es).1.filter_shard_data = sh.filter_shard_data ∧
    (write_trace_entries cfg sh s es).1.input_entry_count = sh.input_entry_count ∧
    (write_trace_entries cfg sh s es).1.last_encoding = sh.last_encoding ∧
    (write_trace_entries cfg sh s es).1.delayed_encodings = sh.delayed_encodings ∧
    (write_trace_entries cfg sh s es).1.removed_from_prev_chunk =
      sh.removed_from_prev_chunk ∧
    (write_trace_entries cfg sh s es).1.output_path = sh.output_path
  | [], sh, s => by simp [write_trace_entries]
  | e :: rest, sh, s => by
    have h1 := wte_preserves cfg sh s e
    have h2 := wtes_preserves cfg rest (write_trace_entry cfg sh s e).1
        (write_trace_entry cfg sh s e).2.1
    simp only [write_trace_entries]
    split
    · exact ⟨h2.1.trans h1.1, (h2.2.1).trans h1.2.1, (h2.2.2.1).trans h1.2.2.1,
        (h2.2.2.2.1).trans h1.2.2.2.1, (h2.2.2.2.2.1).trans h1.2.2.2.2.1,
        (h2.2.2.2.2.2.1).trans h1.2.2.2.2.2.1,
        (h2.2.2.2.2.2.2.1).trans h1.2.2.2.2.2.2.1,
        (h2.2.2.2.2.2.2.2.1).trans h1.2.2.2.2.2.2.2.1,
        (h2.2.2.2.2.2.2.2.2.1).trans h1.2.2.2.2.2.2.2.2.1,
        (h2.2.2.2.2.2.2.2.2.2).trans h1.2.2.2.2.2.2.2.2.2⟩
    · exact h1

theorem tail_preserves {σ : Type} (cfg : record_filter_cfg σ) (sh : per_shard_t σ)
    (s : Bool) (e : trace_entry_t) (out : Bool) :
    (shard_memref_tail cfg s sh e out).1.enabled = sh.enabled ∧
    (shard_memref_tail cfg s sh e out).1.has_archive = sh.has_archive ∧
    (shard_memref_tail cfg s sh e out).1.chunk_ordinal = sh.chunk_ordinal ∧
    (shard_memref_tail cfg s sh e out).1.opened_components = sh.opened_components ∧
    (shard_memref_tail cfg s sh e out).1.filter_shard_data = sh.filter_shard_data ∧
    (shard_memref_tail cfg s sh e out).1.input_entry_count = sh.input_entry_count ∧
    (shard_memref_tail cfg s sh e out).1.removed_from_prev_chunk =
      sh.removed_from_prev_chunk ∧
    (shard_memref_tail cfg s sh e out).1.output_path = sh.output_path := by
  simp only [shard_memref_tail]
  repeat' split
  all_goals simp [wte_preserves, wtes_preserves]

theorem onc_preserves {σ : Type} (cfg : record_filter_cfg σ) (sh : per_shard_t σ) :
    (open_new_chunk cfg sh).1.enabled = sh.enabled ∧
    (open_new_chunk cfg sh).1.has_archive = sh.has_archive ∧
    (open_new_chunk cfg sh).1.chunk_ordinal = sh.chunk_ordinal ∧
    (open_new_chunk cfg sh).1.filter_shard_data = sh.filter_shard_data ∧
    (open_new_chunk cfg sh).1.input_entry_count = sh.input_entry_count ∧
    (open_new_chunk cfg sh).1.removed_from_prev_chunk = sh.removed_from_prev_chunk ∧
    (open_new_chunk cfg sh).1.output_path = sh.output_path ∧
    (open_new_chunk cfg sh).1.output = sh.output ∧
    (open_new_chunk cfg sh).1.output_entry_count = sh.output_entry_count ∧
    (open_new_chunk cfg sh).1.last_encoding = sh.last_encoding ∧
    (open_new_chunk cfg sh).1.delayed_encodings = sh.delayed_encodings ∧
    (open_new_chunk cfg sh).1.error = sh.error := by
  simp only [open_new_chunk]
  split <;> simp

theorem marker_preserves {σ : Type} (cfg : record_filter_cfg σ) (sh : per_shard_t σ)
    (s : Bool) (e : trace_entry_t) (out : Bool) :
    (shard_memref_marker cfg s sh e out).1.enabled = sh.enabled ∧
    (shard_memref_marker cfg s sh e out).1.has_archive = sh.has_archive ∧
    (shard_memref_marker cfg s sh e out).1.filter_shard_data = sh.filter_shard_data ∧
    (shard_memref_marker cfg s sh e out).1.input_entry_count = sh.input_entry_count ∧
    (shard_memref_marker cfg s sh e out).1.output_path = sh.output_path := by
  simp only [shard_memref_marker]
  by_cases hm : e.type = trace_type_t.TRACE_TYPE_MARKER
  · rw [if_pos hm]
    by_cases h9 : e.size = TRACE_MARKER_TYPE_FILETYPE
    · rw [if_pos h9]
      have ht := tail_preserves cfg sh s
          (if cfg.stop_timestamp ≠ 0 then
            { e with addr := e.addr ||| OFFLINE_FILE_TYPE_BIMODAL_FILTERED_WARMUP }
          else e) out
      exact ⟨ht.1, ht.2.1, ht.2.2.2.2.1, ht.2.2.2.2.2.1, ht.2.2.2.2.2.2.2⟩
    · rw [if_neg h9]
      by_cases h21 : e.size = TRACE_MARKER_TYPE_CHUNK_FOOTER
      · rw [if_pos h21]
        by_cases hout : out = false
        · rw [if_pos hout]; simp
        · rw [if_neg hout]
          by_cases harch : sh.has_archive = false
          · rw [if_pos harch]; simp
          · rw [if_neg harch]
            by_cases haddr : e.addr ≠ sh.chunk_ordinal
            · rw [if_pos haddr]; simp
            · rw [if_neg haddr]
              split_ifs <;> simp [wte_preserves, onc_preserves]
      · rw [if_neg h21]
        by_cases h22 : e.size = TRACE_MARKER_TYPE_RECORD_ORDINAL
        · rw [if_pos h22]
          by_cases hout : out = false
          · rw [if_pos hout]; simp
          · rw [if_neg hout]
            have ht := tail_preserves cfg
                { sh with removed_from_prev_chunk := 0 } s
                { e with addr := sub64 e.addr sh.removed_from_prev_chunk } out
            exact ⟨ht.1, ht.2.1, ht.2.2.2.2.1, ht.2.2.2.2.2.1, ht.2.2.2.2.2.2.2⟩
        · rw [if_neg h22]
          have ht := tail_preserves cfg sh s e out
          exact ⟨ht.1, ht.2.1, ht.2.2.2.2.1, ht.2.2.2.2.2.1, ht.2.2.2.2.2.2.2⟩
  · rw [if_neg hm]
    have ht := tail_preserves cfg sh s e out
    exact ⟨ht.1, ht.2.1, ht.2.2.2.2.1, ht.2.2.2.2.2.1, ht.2.2.2.2.2.2.2⟩

theorem marker_removed_of_dropped {σ : Type} (cfg : record_filter_cfg σ)
    (sh : per_shard_t σ) (s : Bool) (e : trace_entry_t) :
    (shard_memref_marker cfg s sh e false).1.removed_from_prev_chunk =
      sh.removed_from_prev_chunk := by
  simp only [shard_memref_marker]
  by_cases hm : e.type = trace_type_t.TRACE_TYPE_MARKER
  · rw [if_pos hm]
    by_cases h9 : e.size = TRACE_MARKER_TYPE_FILETYPE
    · rw [if_pos h9]
      exact (tail_preserves cfg sh s _ false).2.2.2.2.2.2.1
    · rw [if_neg h9]
      by_cases h21 : e.size = TRACE_MARKER_TYPE_CHUNK_FOOTER
      · rw [if_pos h21]; simp
      · rw [if_neg h21]
        by_cases h22 : e.size = TRACE_MARKER_TYPE_RECORD_ORDINAL
        · rw [if_pos h22]; simp
        · rw [if_neg h22]
          exact (tail_preserves cfg sh s e false).2.2.2.2.2.2.1
  · rw [if_neg hm]
    exact (tail_preserves cfg sh s e false).2.2.2.2.2.2.1

theorem body_preserves {σ : Type} (cfg : record_filter_cfg σ) (sh : per_shard_t σ)
    (s : Bool) (e : trace_entry_t) (rc : Nat) :
    (shard_memref_body cfg s sh e rc).1.enabled = sh.enabled ∧
    (shard_memref_body cfg s sh e rc).1.has_archive = sh.has_archive ∧
    (shard_memref_body cfg s sh e rc).1.input_entry_count = sh.input_entry_count ∧
    (shard_memref_body cfg s sh e rc).1.output_path = sh.output_path := by
  simp only [shard_memref_body]
  split_ifs <;> simp [marker_preserves]

theorem gate_nofire_eq {σ : Type} (cfg : record_filter_cfg σ) (s : Bool)
    (sh : per_shard_t σ) (ts : Nat) (e : trace_entry_t)
    (h : ¬(sh.enabled = true ∧ cfg.stop_timestamp ≠ 0 ∧ cfg.stop_timestamp ≤ ts)) :
    parallel_shard_memref cfg s sh ts e =
      shard_memref_body cfg s
        { sh with input_entry_count := sh.input_entry_count + 1 } e
        (cfg.entry_memref_count e) := by
  simp only [parallel_shard_memref]
  split
  · exact absurd (by simpa using ‹_›) h
  · rfl

theorem gate_fire_eq {σ : Type} (cfg : record_filter_cfg σ) (s : Bool)
    (sh : per_shard_t σ) (ts : Nat) (e : trace_entry_t)
    (h : sh.enabled = true ∧ cfg.stop_timestamp ≠ 0 ∧ cfg.stop_timestamp ≤ ts)
    (hw : cfg.write_ok filter_boundary_entry = true) :
    parallel_shard_memref cfg s sh ts e =
      shard_memref_body cfg s
        { sh with
          input_entry_count := sh.input_entry_count + 1,
          enabled := false,
          output := sh.output ++ [filter_boundary_entry],
          output_entry_count := sh.output_entry_count + 1 } e
        (cfg.entry_memref_count e) := by
  simp [parallel_shard_memref, write_trace_entry, h.1, h.2.1, h.2.2, hw]

theorem body_disabled_eq {σ : Type} (cfg : record_filter_cfg σ) (s : Bool)
    (sh : per_shard_t σ) (e : trace_entry_t) (rc : Nat)
    (hen : sh.enabled = false) :
    shard_memref_body cfg s sh e rc = shard_memref_marker cfg s sh e true := by
  cases sh
  simp_all [shard_memref_body]

theorem body_enabled_kept_eq {σ : Type} (cfg : record_filter_cfg σ) (s : Bool)
    (sh : per_shard_t σ) (e : trace_entry_t) (rc : Nat)
    (hen : sh.enabled = true)
    (hk : (run_filters e cfg.filters sh.filter_shard_data).1 = true) :
    shard_memref_body cfg s sh e rc =
      shard_memref_marker cfg s
        { sh with
          filter_shard_data := (run_filters e cfg.filters sh.filter_shard_data).2 }
        e true := by
  simp [shard_memref_body, hen, hk]

theorem body_dropped_eq {σ : Type} (cfg : record_filter_cfg σ) (s : Bool)
    (sh : per_shard_t σ) (e : trace_entry_t) (rc : Nat)
    (hen : sh.enabled = true)
    (hk : (run_filters e cfg.filters sh.filter_shard_data).1 = false)
    (hni : ¬(is_any_instr_type e.type = true ∧ sh.has_archive = true)) :
    shard_memref_body cfg s sh e rc =
      shard_memref_marker cfg s
        { sh with
          filter_shard_data := (run_filters e cfg.filters sh.filter_shard_data).2,
          removed_from_prev_chunk := sh.removed_from_prev_chunk + rc }
        e false := by
  simp [shard_memref_body, hen, hk, hni]

theorem marker_nonmarker_eq {σ : Type} (cfg : record_filter_cfg σ) (s : Bool)
    (sh : per_shard_t σ) (e : trace_entry_t) (out : Bool)
    (hm : e.type ≠ trace_type_t.TRACE_TYPE_MARKER) :
    shard_memref_marker cfg s sh e out = shard_memref_tail cfg s sh e out := by
  simp [shard_memref_marker, hm]

theorem marker_ordinal_kept_eq {σ : Type} (cfg : record_filter_cfg σ) (s : Bool)
    (sh : per_shard_t σ) (e : trace_entry_t)
    (hm : e.type = trace_type_t.TRACE_TYPE_MARKER)
    (h22 : e.size = TRACE_MARKER_TYPE_RECORD_ORDINAL) :
    shard_memref_marker cfg s sh e true =
      shard_memref_tail cfg s { sh with removed_from_prev_chunk := 0 }
        { e with addr := sub64 e.addr sh.removed_from_prev_chunk } true := by
  have h9 : e.size ≠ TRACE_MARKER_TYPE_FILETYPE := by
    rw [h22]; decide
  have h21 : e.size ≠ TRACE_MARKER_TYPE_CHUNK_FOOTER := by
    rw [h22]; decide
  simp [shard_memref_marker, hm, h9, h21, h22, TRACE_MARKER_TYPE_FILETYPE,
    TRACE_MARKER_TYPE_CHUNK_FOOTER, TRACE_MARKER_TYPE_RECORD_ORDINAL]

theorem tail_write_eq {σ : Type} (cfg : record_filter_cfg σ) (s : Bool)
    (sh : per_shard_t σ) (e : trace_entry_t)
    (hne : e.type ≠ trace_type_t.TRACE_TYPE_ENCODING)
    (hni : is_any_instr_type e.type = false)
    (hw : cfg.write_ok e = true) :
    shard_memref_tail cfg s sh e true =
      ({ sh with
          output := sh.output ++ [e],
          output_entry_count := sh.output_entry_count + 1 }, s, true) := by
  simp [shard_memref_tail, hne, hni, write_trace_entry, hw]

theorem tail_dropped_noninstr_eq {σ : Type} (cfg : record_filter_cfg σ) (s : Bool)
    (sh : per_shard_t σ) (e : trace_entry_t)
    (hni : is_any_instr_type e.type = false) :
    shard_memref_tail cfg s sh e false = (sh, s, true) := by
  simp [shard_memref_tail, hni]

theorem succ_mono_wte {σ : Type} (cfg : record_filter_cfg σ) (sh : per_shard_t σ)
    (s : Bool) (e : trace_entry_t)
    (h : (write_trace_entry cfg sh s e).2.1 = true) : s = true := by
  unfold write_trace_entry at h
  split at h <;> simp_all

theorem succ_mono_wtes {σ : Type} (cfg : record_filter_cfg σ) :
    ∀ (es : List trace_entry_t) (sh : per_shard_t σ) (s : Bool),
    (write_trace_entries cfg sh s es).2.1 = true → s = true
  | [], sh, s, h => h
  | e :: rest, sh, s, h => by
    simp only [write_trace_entries] at h
    split at h
    · exact succ_mono_wte cfg sh s e
        (succ_mono_wtes cfg rest (write_trace_entry cfg sh s e).1
          (write_trace_entry cfg sh s e).2.1 h)
    · exact succ_mono_wte cfg sh s e h

theorem succ_mono_tail {σ : Type} (cfg : record_filter_cfg σ) (sh : per_shard_t σ)
    (s : Bool) (e : trace_entry_t) (out : Bool)
    (h : (shard_memref_tail cfg s sh e out).2.1 = true) : s = true := by
  simp only [shard_memref_tail] at h
  repeat' split at h
  all_goals first
    | exact h
    | exact succ_mono_wte cfg _ _ _ h
    | exact succ_mono_wtes cfg _ _ _ h
    | exact succ_mono_wtes cfg _ _ _ (succ_mono_wte cfg _ _ _ h)

theorem succ_mono_marker {σ : Type} (cfg : record_filter_cfg σ) (sh : per_shard_t σ)
    (s : Bool) (e : trace_entry_t) (out : Bool)
    (h : (shard_memref_marker cfg s sh e out).2.1 = true) : s = true := by
  simp only [shard_memref_marker] at h
  repeat' split at h
  all_goals first
    | exact h
    | exact succ_mono_tail cfg _ _ _ _ h
    | exact succ_mono_wte cfg _ _ _ h

theorem succ_mono_body {σ : Type} (cfg : record_filter_cfg σ) (sh : per_shard_t σ)
    (s : Bool) (e : trace_entry_t) (rc : Nat)
    (h : (shard_memref_body cfg s sh e rc).2.1 = true) : s = true := by
  simp only [shard_memref_body] at h
  repeat' split at h
  all_goals first
    | exact h
    | exact succ_mono_marker cfg _ _ _ _ h

theorem succ_mono_step {σ : Type} (cfg : record_filter_cfg σ) (sh : per_shard_t σ)
    (s : Bool) (ts : Nat) (e : trace_entry_t)
    (h : (parallel_shard_memref cfg s sh ts e).2.1 = true) : s = true := by
  simp only [parallel_shard_memref] at h
  repeat' split at h
  all_goals first
    | exact h
    | exact succ_mono_body cfg _ _ _ _ h
    | exact succ_mono_wte cfg _ _ _ h
    | exact succ_mono_wte cfg _ _ _ (succ_mono_body cfg _ _ _ _ h)

theorem succ_mono_run {σ : Type} (cfg : record_filter_cfg σ) :
    ∀ (inputs : List (Nat × trace_entry_t)) (sh : per_shard_t σ) (s : Bool),
    (run_shard cfg sh s inputs).2 = true → s = true
  | [], sh, s, h => h
  | (ts, e) :: rest, sh, s, h => by
    simp only [run_shard] at h
    exact succ_mono_step cfg sh s ts e
      (succ_mono_run cfg rest (parallel_shard_memref cfg s sh ts e).1
        (parallel_shard_memref cfg s sh ts e).2.1 h)

theorem succ_mono_init_fold {σ : Type} :
    ∀ (inits : List (σ × String)) (acc : per_shard_t σ × Bool),
    (init_filter_fold inits acc).2 = true → acc.2 = true
  | [], acc, h => h
  | fi :: rest, acc, h => by
    simp only [init_filter_fold] at h
    have h2 := succ_mono_init_fold rest _ h
    split at h2
    · exact absurd h2 (by simp)
    · exact h2

theorem succ_mono_init {σ : Type} (cfg : record_filter_cfg σ) (nm : String)
    (arch nul : Bool) (inits : List (σ × String)) (s : Bool)
    (h : (parallel_shard_init_stream cfg nm arch nul inits s).2 = true) :
    s = true := by
  simp only [parallel_shard_init_stream] at h
  repeat' split at h
  all_goals first
    | exact succ_mono_init_fold inits _ h
    | simp_all

theorem marker_footer_dropped_eq {σ : Type} (cfg : record_filter_cfg σ) (s : Bool)
    (sh : per_shard_t σ) (e : trace_entry_t)
    (hm : e.type = trace_type_t.TRACE_TYPE_MARKER)
    (h21 : e.size = TRACE_MARKER_TYPE_CHUNK_FOOTER) :
    shard_memref_marker cfg s sh e false =
      ({ sh with error := "Removing chunk footers is not supported" }, s, false) := by
  have h9 : e.size ≠ TRACE_MARKER_TYPE_FILETYPE := by
    rw [h21]; decide
  simp [shard_memref_marker, hm, h21, h9, TRACE_MARKER_TYPE_FILETYPE,
    TRACE_MARKER_TYPE_CHUNK_FOOTER]

theorem marker_ordinal_dropped_eq {σ : Type} (cfg : record_filter_cfg σ) (s : Bool)
    (sh : per_shard_t σ) (e : trace_entry_t)
    (hm : e.type = trace_type_t.TRACE_TYPE_MARKER)
    (h22 : e.size = TRACE_MARKER_TYPE_RECORD_ORDINAL) :
    shard_memref_marker cfg s sh e false =
      ({ sh with error := "Removing ordinal marker is not supported" }, s, false) := by
  have h9 : e.size ≠ TRACE_MARKER_TYPE_FILETYPE := by
    rw [h22]; decide
  have h21 : e.size ≠ TRACE_MARKER_TYPE_CHUNK_FOOTER := by
    rw [h22]; decide
  simp [shard_memref_marker, hm, h22, h9, h21, TRACE_MARKER_TYPE_FILETYPE,
    TRACE_MARKER_TYPE_CHUNK_FOOTER, TRACE_MARKER_TYPE_RECORD_ORDINAL]

theorem lastne_all_empty :
    ∀ (l : List String) (a : String), (∀ x ∈ l, x = "") →
    List.foldl (fun acc s => if s ≠ "" then s else acc) a l = a
  | [], _, _ => rfl
  | x :: l, a, h => by
    have hx : x = "" := h x (by simp)
    subst hx
    simp only [List.foldl_cons, ne_eq, not_true_eq_false, if_false]
    exact lastne_all_empty l a (fun y hy => h y (by simp [hy]))

theorem lastne_irrel :
    ∀ (l : List String) (a b : String),
    l.all (fun x => x == "") = false →
    List.foldl (fun acc s => if s ≠ "" then s else acc) a l =
      List.foldl (fun acc s => if s ≠ "" then s else acc) b l
  | [], a, b, h => by simp at h
  | x :: l, a, b, h => by
    by_cases hx : x = ""
    · subst hx
      simp only [List.all_cons, beq_self_eq_true, Bool.true_and] at h
      simp only [List.foldl_cons, ne_eq, not_true_eq_false, if_false]
      exact lastne_irrel l a b h
    · simp only [List.foldl_cons, ne_eq, hx, not_false_eq_true, if_true]

theorem init_fold_spec {σ : Type} :
    ∀ (inits : List (σ × String)) (acc : per_shard_t σ × Bool),
    (init_filter_fold inits acc).2 =
      (acc.2 && (inits.map (fun fi => fi.2)).all (fun x => x == "")) ∧
    (init_filter_fold inits acc).1.filter_shard_data =
      acc.1.filter_shard_data ++ inits.map (fun fi => fi.1) ∧
    (init_filter_fold inits acc).1.error =
      (if (inits.map (fun fi => fi.2)).all (fun x => x == "") then acc.1.error
        else "Failure in initializing filter function " ++
          last_nonempty (inits.map (fun fi => fi.2)))
  | [], acc => by simp [init_filter_fold, last_nonempty]
  | (st, err) :: rest, acc => by
    by_cases he : err = ""
    · subst he
      have ih := init_fold_spec rest
          ({ acc.1 with
              filter_shard_data := acc.1.filter_shard_data ++ [st] }, acc.2)
      simp only [init_filter_fold, ne_eq, not_true_eq_false, if_false,
        List.map_cons, List.all_cons, beq_self_eq_true, Bool.true_and] at ih ⊢
      refine ⟨ih.1, ?_, ?_⟩
      · rw [ih.2.1]
        simp
      · rw [ih.2.2]
        simp [last_nonempty]
    · have ih := init_fold_spec rest
          ({ acc.1 with
              filter_shard_data := acc.1.filter_shard_data ++ [st],
              error := "Failure in initializing filter function " ++ err }, false)
      simp only [init_filter_fold, ne_eq, he, not_false_eq_true, if_true,
        List.map_cons, List.all_cons] at ih ⊢
      have hbe : (err == "") = false := by
        simpa using he
      refine ⟨?_, ?_, ?_⟩
      · rw [ih.1, hbe]
        simp
      · rw [ih.2.1]
        simp
      · rw [ih.2.2, hbe]
        simp only [Bool.false_and, if_false]
        by_cases hall : (rest.map (fun fi => fi.2)).all (fun x => x == "") = true
        · rw [if_pos hall]
          simp only [last_nonempty, List.foldl_cons, ne_eq, he, not_false_eq_true,
            if_true]
          have : ∀ x ∈ rest.map (fun fi => fi.2), x = "" := by
            intro x hx
            have := List.all_eq_true.mp hall x hx
            simpa using this
          rw [lastne_all_empty _ err this]
          simp
        · have hallf : (rest.map (fun fi => fi.2)).all (fun x => x == "") = false := by
            simpa using hall
          rw [if_neg hall]
          simp only [last_nonempty, List.foldl_cons, ne_eq, he, not_false_eq_true,
            if_true]
          rw [lastne_irrel _ err "" hallf]
          simp [hallf]

theorem instr_ne_marker {t : trace_type_t} (h : is_any_instr_type t = true) :
    t ≠ trace_type_t.TRACE_TYPE_MARKER := by
  cases t <;> simp_all [is_any_instr_type, type_is_instr]

theorem instr_ne_encoding {t : trace_type_t} (h : is_any_instr_type t = true) :
    t ≠ trace_type_t.TRACE_TYPE_ENCODING := by
  cases t <;> simp_all [is_any_instr_type, type_is_instr]

/-- C7: when the sink is a chunked archive and the filter chain drops an
instruction-like record, processing that record fails the shard with the
fixed non-empty unsupported-operation error, independent of which filter
rejected it (only the conjunction of all decisions being false matters). -/
theorem C7_archive_instr_drop_fails {σ : Type} (cfg : record_filter_cfg σ)
    (success : Bool) (sh : per_shard_t σ) (ts : Nat) (e : trace_entry_t)
    (hgate : ¬(sh.enabled = true ∧ cfg.stop_timestamp ≠ 0 ∧ cfg.stop_timestamp ≤ ts))
    (hen : sh.enabled = true)
    (hinstr : is_any_instr_type e.type = true)
    (harch : sh.has_archive = true)
    (hdrop : (run_filters e cfg.filters sh.filter_shard_data).1 = false) :
    (parallel_shard_memref cfg success sh ts e).2.2 = false ∧
    (parallel_shard_memref cfg success sh ts e).1.error =
      "Removing instructions from archive output is not yet supported" ∧
    (parallel_shard_memref cfg success sh ts e).1.error ≠ "" := by
  have hg2 : ¬(cfg.stop_timestamp ≠ 0 ∧ cfg.stop_timestamp ≤ ts) := fun hc =>
    hgate ⟨hen, hc⟩
  simp [parallel_shard_memref, shard_memref_body, hg2, hen, hinstr, harch, hdrop]

/-- C7 witness: a concrete archive shard whose single filter rejects a
concrete instruction record. -/
theorem C7_archive_instr_drop_fails_witness :
    ¬(wit_shard_archive.enabled = true ∧ wit_cfg_drop.stop_timestamp ≠ 0 ∧
        wit_cfg_drop.stop_timestamp ≤ 0) ∧
    wit_shard_archive.enabled = true ∧
    is_any_instr_type wit_instr.type = true ∧
    wit_shard_archive.has_archive = true ∧
    (run_filters wit_instr wit_cfg_drop.filters
        wit_shard_archive.filter_shard_data).1 = false ∧
    ((parallel_shard_memref wit_cfg_drop true wit_shard_archive 0 wit_instr).2.2 =
        false ∧
      (parallel_shard_memref wit_cfg_drop true wit_shard_archive 0 wit_instr).1.error =
        "Removing instructions from archive output is not yet supported" ∧
      (parallel_shard_memref wit_cfg_drop true wit_shard_archive 0 wit_instr).1.error ≠
        "") :=
  ⟨by decide, by decide, by decide, by decide, by decide,
    C7_archive_instr_drop_fails wit_cfg_drop true wit_shard_archive 0 wit_instr
      (by decide) (by decide) (by decide) (by decide) (by decide)⟩

/-- C10: an encoding record rejected by the filter chain while the gate is
enabled is discarded entirely: the step still returns true, nothing is
written, the pending slot and the delayed-encodings map are untouched, and
the success flag is untouched. -/
theorem C10_dropped_encoding_discarded {σ : Type} (cfg : record_filter_cfg σ)
    (success : Bool) (sh : per_shard_t σ) (ts : Nat) (e : trace_entry_t)
    (hgate : ¬(sh.enabled = true ∧ cfg.stop_timestamp ≠ 0 ∧ cfg.stop_timestamp ≤ ts))
    (hen : sh.enabled = true)
    (henc : e.type = trace_type_t.TRACE_TYPE_ENCODING)
    (hdrop : (run_filters e cfg.filters sh.filter_shard_data).1 = false) :
    (parallel_shard_memref cfg success sh ts e).2.2 = true ∧
    (parallel_shard_memref cfg success sh ts e).1.output = sh.output ∧
    (parallel_shard_memref cfg success sh ts e).1.last_encoding = sh.last_encoding ∧
    (parallel_shard_memref cfg success sh ts e).1.delayed_encodings =
      sh.delayed_encodings ∧
    (parallel_shard_memref cfg success sh ts e).2.1 = success := by
  have hg2 : ¬(cfg.stop_timestamp ≠ 0 ∧ cfg.stop_timestamp ≤ ts) := fun hc =>
    hgate ⟨hen, hc⟩
  have hni : is_any_instr_type trace_type_t.TRACE_TYPE_ENCODING = false := by decide
  simp [parallel_shard_memref, shard_memref_body, shard_memref_marker,
    shard_memref_tail, hg2, hen, henc, hdrop, hni]

/-- C10 witness: a concrete encoding record rejected by the drop-all
filter. -/
theorem C10_dropped_encoding_discarded_witness :
    ¬(wit_shard.enabled = true ∧ wit_cfg_drop.stop_timestamp ≠ 0 ∧
        wit_cfg_drop.stop_timestamp ≤ 0) ∧
    wit_shard.enabled = true ∧
    wit_enc.type = trace_type_t.TRACE_TYPE_ENCODING ∧
    (run_filters wit_enc wit_cfg_drop.filters wit_shard.filter_shard_data).1 = false ∧
    ((parallel_shard_memref wit_cfg_drop true wit_shard 0 wit_enc).2.2 = true ∧
      (parallel_shard_memref wit_cfg_drop true wit_shard 0 wit_enc).1.output =
        wit_shard.output ∧
      (parallel_shard_memref wit_cfg_drop true wit_shard 0 wit_enc).1.last_encoding =
        wit_shard.last_encoding ∧
      (parallel_shard_memref wit_cfg_drop true wit_shard 0 wit_enc).1.delayed_encodings =
        wit_shard.delayed_encodings ∧
      (parallel_shard_memref wit_cfg_drop true wit_shard 0 wit_enc).2.1 = true) :=
  ⟨by decide, by decide, by decide, by decide,
    C10_dropped_encoding_discarded wit_cfg_drop true wit_shard 0 wit_enc
      (by decide) (by decide) (by decide) (by decide)⟩

/-- C2: (a) every record dropped by the filter chain while the gate is
enabled adds its memref-count logical-unit contribution (not a flat one) to
the removed-since-prior-chunk counter; (b) a kept record-ordinal marker is
written with its original value minus the counter and the counter is reset
to zero, so the second of two ordinal markers separated by K removed
logical units carries original value minus K. -/
theorem C2_ordinal_accounting {σ : Type} (cfg : record_filter_cfg σ) :
    (∀ (success : Bool) (sh : per_shard_t σ) (ts : Nat) (e : trace_entry_t),
      ¬(sh.enabled = true ∧ cfg.stop_timestamp ≠ 0 ∧ cfg.stop_timestamp ≤ ts) →
      sh.enabled = true →
      (run_filters e cfg.filters sh.filter_shard_data).1 = false →
      ¬(is_any_instr_type e.type = true ∧ sh.has_archive = true) →
      (parallel_shard_memref cfg success sh ts e).1.removed_from_prev_chunk =
        sh.removed_from_prev_chunk + cfg.entry_memref_count e) ∧
    (∀ (success : Bool) (sh : per_shard_t σ) (ts : Nat) (e : trace_entry_t),
      ¬(sh.enabled = true ∧ cfg.stop_timestamp ≠ 0 ∧ cfg.stop_timestamp ≤ ts) →
      e.type = trace_type_t.TRACE_TYPE_MARKER →
      e.size = TRACE_MARKER_TYPE_RECORD_ORDINAL →
      (sh.enabled = true →
        (run_filters e cfg.filters sh.filter_shard_data).1 = true) →
      cfg.write_ok { e with addr := e.addr - sh.removed_from_prev_chunk } = true →
      sh.removed_from_prev_chunk ≤ e.addr →
      e.addr < two64 →
      (parallel_shard_memref cfg success sh ts e).1.output =
        sh.output ++ [{ e with addr := e.addr - sh.removed_from_prev_chunk }] ∧
      (parallel_shard_memref cfg success sh ts e).1.removed_from_prev_chunk = 0 ∧
      (parallel_shard_memref cfg success sh ts e).2.2 = true) := by
  constructor
  · intro s sh ts e hgate hen hdrop hnia
    rw [gate_nofire_eq cfg s sh ts e hgate]
    rw [body_dropped_eq cfg s
        { sh with input_entry_count := sh.input_entry_count + 1 } e
        (cfg.entry_memref_count e) hen hdrop hnia]
    simp [marker_removed_of_dropped]
  · intro s sh ts e hgate hm h22 hkeep hw hle ha
    have hsub : sub64 e.addr sh.removed_from_prev_chunk =
        e.addr - sh.removed_from_prev_chunk := sub64_eq hle ha
    have hne : e.type ≠ trace_type_t.TRACE_TYPE_ENCODING := by
      rw [hm]; decide
    have hni : is_any_instr_type e.type = false := by
      rw [hm]; decide
    rw [gate_nofire_eq cfg s sh ts e hgate]
    by_cases hen : sh.enabled = true
    · rw [body_enabled_kept_eq cfg s
          { sh with input_entry_count := sh.input_entry_count + 1 } e
          (cfg.entry_memref_count e) hen (hkeep hen)]
      rw [marker_ordinal_kept_eq cfg s _ e hm h22]
      simp only [hsub]
      rw [tail_write_eq cfg s _
          { e with addr := e.addr - sh.removed_from_prev_chunk } hne hni hw]
      simp
    · have henf : sh.enabled = false := by simpa using hen
      rw [body_disabled_eq cfg s
          { sh with input_entry_count := sh.input_entry_count + 1 } e
          (cfg.entry_memref_count e) henf]
      rw [marker_ordinal_kept_eq cfg s _ e hm h22]
      simp only [hsub]
      rw [tail_write_eq cfg s _
          { e with addr := e.addr - sh.removed_from_prev_chunk } hne hni hw]
      simp

/-- C2 witness: a dropped concrete read adds its unit to the counter, and
a concrete ordinal marker on a shard with two removed units is rewritten
from 100 to 98 with the counter reset. -/
theorem C2_ordinal_accounting_witness :
    (run_filters wit_read wit_cfg_drop_read.filters wit_shard.filter_shard_data).1 =
      false ∧
    (parallel_shard_memref wit_cfg_drop_read true wit_shard 0
        wit_read).1.removed_from_prev_chunk =
      wit_shard.removed_from_prev_chunk +
        wit_cfg_drop_read.entry_memref_count wit_read ∧
    wit_shard_rm2.removed_from_prev_chunk ≤ wit_ord.addr ∧
    ((parallel_shard_memref wit_cfg_drop_read true wit_shard_rm2 0 wit_ord).1.output =
        wit_shard_rm2.output ++
          [{ wit_ord with
              addr := wit_ord.addr - wit_shard_rm2.removed_from_prev_chunk }] ∧
      (parallel_shard_memref wit_cfg_drop_read true wit_shard_rm2 0
          wit_ord).1.removed_from_prev_chunk = 0 ∧
      (parallel_shard_memref wit_cfg_drop_read true wit_shard_rm2 0 wit_ord).2.2 =
        true) :=
  ⟨by decide,
    (C2_ordinal_accounting wit_cfg_drop_read).1 true wit_shard 0 wit_read
      (by decide) (by decide) (by decide) (by decide),
    by decide,
    (C2_ordinal_accounting wit_cfg_drop_read).2 true wit_shard_rm2 0 wit_ord
      (by decide) (by decide) (by decide) (fun _ => by decide) (by decide)
      (by decide) (by decide)⟩

/-- C6: the filter chain is conjunctive: with zero filters every state list
passes unchanged; the keep decision is the conjunction of every configured
filter's own decision on its own per-shard state slot, each filter being
applied (and its state updated) even when an earlier filter already
rejected; and for a gate-admitted ordinary record the step stores every
updated filter state and writes the record iff all filters accepted it. -/
theorem C6_conjunctive_filtering {σ : Type} (cfg : record_filter_cfg σ) :
    (∀ (e : trace_entry_t) (sts : List σ),
      run_filters e ([] : List (trace_entry_t → σ → Bool × σ)) sts = (true, sts)) ∧
    (∀ (e : trace_entry_t) (fs : List (trace_entry_t → σ → Bool × σ))
        (sts : List σ),
      (run_filters e fs sts).1 = (fs.zip sts).all (fun p => (p.1 e p.2).1)) ∧
    (∀ (e : trace_entry_t) (fs : List (trace_entry_t → σ → Bool × σ))
        (sts : List σ),
      (run_filters e fs sts).2 =
        (fs.zip sts).map (fun p => (p.1 e p.2).2) ++ sts.drop fs.length) ∧
    (∀ (s : Bool) (sh : per_shard_t σ) (ts : Nat) (e : trace_entry_t),
      ¬(sh.enabled = true ∧ cfg.stop_timestamp ≠ 0 ∧ cfg.stop_timestamp ≤ ts) →
      sh.enabled = true →
      e.type ≠ trace_type_t.TRACE_TYPE_MARKER →
      e.type ≠ trace_type_t.TRACE_TYPE_ENCODING →
      is_any_instr_type e.type = false →
      cfg.write_ok e = true →
      (parallel_shard_memref cfg s sh ts e).1.filter_shard_data =
        (run_filters e cfg.filters sh.filter_shard_data).2 ∧
      (parallel_shard_memref cfg s sh ts e).1.output =
        sh.output ++
          (if (run_filters e cfg.filters sh.filter_shard_data).1 = true then [e]
            else [])) := by
  refine ⟨?_, ?_, ?_, ?_⟩
  · intro e sts
    simp [run_filters]
  · intro e fs
    induction fs with
    | nil => intro sts; simp [run_filters]
    | cons f fs ih =>
      intro sts
      cases sts with
      | nil => simp [run_filters]
      | cons st sts => simp [run_filters, ih]
  · intro e fs
    induction fs with
    | nil => intro sts; simp [run_filters]
    | cons f fs ih =>
      intro sts
      cases sts with
      | nil => simp [run_filters]
      | cons st sts => simp [run_filters, ih]
  · intro s sh ts e hgate hen hm henc hni hw
    by_cases hk : (run_filters e cfg.filters sh.filter_shard_data).1 = true
    · rw [gate_nofire_eq cfg s sh ts e hgate]
      rw [body_enabled_kept_eq cfg s
          { sh with input_entry_count := sh.input_entry_count + 1 } e
          (cfg.entry_memref_count e) hen hk]
      rw [marker_nonmarker_eq cfg s _ e true hm]
      rw [tail_write_eq cfg s _ e henc hni hw]
      simp [hk]
    · have hkf : (run_filters e cfg.filters sh.filter_shard_data).1 = false := by
        simpa using hk
      have hnia : ¬(is_any_instr_type e.type = true ∧ sh.has_archive = true) := by
        simp [hni]
      rw [gate_nofire_eq cfg s sh ts e hgate]
      rw [body_dropped_eq cfg s
          { sh with input_entry_count := sh.input_entry_count + 1 } e
          (cfg.entry_memref_count e) hen hkf hnia]
      rw [marker_nonmarker_eq cfg s _ e false hm]
      rw [tail_dropped_noninstr_eq cfg s _ e hni]
      simp [hkf]

/-- C6 witness: with the concrete drop-reads filter, a concrete read is
rejected and not written while its filter state is stored; the zero-filter
configuration keeps every state list. -/
theorem C6_conjunctive_filtering_witness :
    run_filters wit_read ([] : List (trace_entry_t → Unit → Bool × Unit)) [()] =
      (true, [()]) ∧
    ¬(wit_shard.enabled = true ∧ wit_cfg_drop_read.stop_timestamp ≠ 0 ∧
        wit_cfg_drop_read.stop_timestamp ≤ 0) ∧
    wit_shard.enabled = true ∧
    ((parallel_shard_memref wit_cfg_drop_read true wit_shard 0
        wit_read).1.filter_shard_data =
      (run_filters wit_read wit_cfg_drop_read.filters
          wit_shard.filter_shard_data).2 ∧
    (parallel_shard_memref wit_cfg_drop_read true wit_shard 0 wit_read).1.output =
      wit_shard.output ++
        (if (run_filters wit_read wit_cfg_drop_read.filters
              wit_shard.filter_shard_data).1 = true then [wit_read]
          else [])) :=
  ⟨(C6_conjunctive_filtering wit_cfg_drop_read).1 wit_read [()],
    by decide, by decide,
    (C6_conjunctive_filtering wit_cfg_drop_read).2.2.2 true wit_shard 0 wit_read
      (by decide) (by decide) (by decide) (by decide) (by decide) (by decide)⟩

/-- C4: the gate disables the shard exactly when a non-zero stop timestamp
is configured and the last-observed timestamp has reached it while still
enabled; disablement is one way; at the transition exactly one synthetic
filter-endpoint boundary marker is written before the triggering record is
processed; and a disabled shard bypasses the filter chain entirely,
proceeding directly to marker rewriting in pass-through mode with its
filter states untouched. -/
theorem C4_gate_monotonic {σ : Type} (cfg : record_filter_cfg σ) :
    (∀ (s : Bool) (sh : per_shard_t σ) (ts : Nat) (e : trace_entry_t),
      ((parallel_shard_memref cfg s sh ts e).1.enabled = true ↔
        (sh.enabled = true ∧
          ¬(cfg.stop_timestamp ≠ 0 ∧ cfg.stop_timestamp ≤ ts)))) ∧
    (∀ (s : Bool) (sh : per_shard_t σ) (ts : Nat) (e : trace_entry_t),
      (sh.enabled = true ∧ cfg.stop_timestamp ≠ 0 ∧ cfg.stop_timestamp ≤ ts) →
      cfg.write_ok filter_boundary_entry = true →
      parallel_shard_memref cfg s sh ts e =
        shard_memref_body cfg s
          { sh with
            input_entry_count := sh.input_entry_count + 1,
            enabled := false,
            output := sh.output ++ [filter_boundary_entry],
            output_entry_count := sh.output_entry_count + 1 } e
          (cfg.entry_memref_count e)) ∧
    (∀ (s : Bool) (sh : per_shard_t σ) (ts : Nat) (e : trace_entry_t),
      ¬(sh.enabled = true ∧ cfg.stop_timestamp ≠ 0 ∧ cfg.stop_timestamp ≤ ts) →
      parallel_shard_memref cfg s sh ts e =
        shard_memref_body cfg s
          { sh with input_entry_count := sh.input_entry_count + 1 } e
          (cfg.entry_memref_count e)) ∧
    (∀ (s : Bool) (sh : per_shard_t σ) (ts : Nat) (e : trace_entry_t),
      sh.enabled = false →
      parallel_shard_memref cfg s sh ts e =
        shard_memref_marker cfg s
          { sh with input_entry_count := sh.input_entry_count + 1 } e true ∧
      (parallel_shard_memref cfg s sh ts e).1.filter_shard_data =
        sh.filter_shard_data ∧
      (parallel_shard_memref cfg s sh ts e).1.enabled = false) := by
  refine ⟨?_, ?_, ?_, ?_⟩
  · intro s sh ts e
    by_cases hfire : sh.enabled = true ∧ cfg.stop_timestamp ≠ 0 ∧
        cfg.stop_timestamp ≤ ts
    · simp only [parallel_shard_memref]
      rw [if_pos (by simpa using hfire)]
      split

      · simp [wte_preserves, hfire.2.1, hfire.2.2]
      · simp [body_preserves, wte_preserves, hfire.2.1, hfire.2.2]
    · rw [gate_nofire_eq cfg s sh ts e hfire]
      simp only [body_preserves]
      constructor
      · intro h
        exact ⟨h, fun hc => hfire ⟨h, hc⟩⟩
      · intro h
        exact h.1
  · intro s sh ts e hfire hw
    exact gate_fire_eq cfg s sh ts e hfire hw
  · intro s sh ts e hfire
    exact gate_nofire_eq cfg s sh ts e hfire
  · intro s sh ts e hen
    have hnf : ¬(sh.enabled = true ∧ cfg.stop_timestamp ≠ 0 ∧
        cfg.stop_timestamp ≤ ts) := by simp [hen]
    have h1 := gate_nofire_eq cfg s sh ts e hnf
    have h2 := body_disabled_eq cfg s
        { sh with input_entry_count := sh.input_entry_count + 1 } e
        (cfg.entry_memref_count e) hen
    refine ⟨h1.trans h2, ?_, ?_⟩
    · rw [h1, h2]
      simp [marker_preserves]
    · rw [h1, h2]
      simp [marker_preserves, hen]

/-- C4 witness: at the concrete gate configuration the transition happens
exactly at timestamp 7 with the boundary marker emitted, and a concrete
disabled shard keeps its filter state and stays disabled. -/
theorem C4_gate_monotonic_witness :
    ((parallel_shard_memref wit_cfg_gate true wit_shard 7 wit_read).1.enabled = true ↔
      (wit_shard.enabled = true ∧
        ¬(wit_cfg_gate.stop_timestamp ≠ 0 ∧ wit_cfg_gate.stop_timestamp ≤ 7))) ∧
    (wit_shard.enabled = true ∧ wit_cfg_gate.stop_timestamp ≠ 0 ∧
      wit_cfg_gate.stop_timestamp ≤ 7) ∧
    parallel_shard_memref wit_cfg_gate true wit_shard 7 wit_read =
      shard_memref_body wit_cfg_gate true
        { wit_shard with
          input_entry_count := wit_shard.input_entry_count + 1,
          enabled := false,
          output := wit_shard.output ++ [filter_boundary_entry],
          output_entry_count := wit_shard.output_entry_count + 1 } wit_read
        (wit_cfg_gate.entry_memref_count wit_read) ∧
    (parallel_shard_memref wit_cfg_gate true
        { wit_shard with enabled := false } 9 wit_read).1.filter_shard_data =
      ({ wit_shard with enabled := false } : per_shard_t Unit).filter_shard_data ∧
    (parallel_shard_memref wit_cfg_gate true
        { wit_shard with enabled := false } 9 wit_read).1.enabled = false :=
  ⟨(C4_gate_monotonic wit_cfg_gate).1 true wit_shard 7 wit_read,
    by decide,
    (C4_gate_monotonic wit_cfg_gate).2.1 true wit_shard 7 wit_read (by decide)
      (by decide),
    ((C4_gate_monotonic wit_cfg_gate).2.2.2 true
        { wit_shard with enabled := false } 9 wit_read (by decide)).2.1,
    ((C4_gate_monotonic wit_cfg_gate).2.2.2 true
        { wit_shard with enabled := false } 9 wit_read (by decide)).2.2⟩

theorem kept_mid_fields {σ : Type} (cfg : record_filter_cfg σ) (sh : per_shard_t σ)
    (e : trace_entry_t) :
    (kept_mid cfg sh e).enabled = sh.enabled ∧
    (kept_mid cfg sh e).error = sh.error ∧
    (kept_mid cfg sh e).output_path = sh.output_path ∧
    (kept_mid cfg sh e).has_archive = sh.has_archive ∧
    (kept_mid cfg sh e).chunk_ordinal = sh.chunk_ordinal ∧
    (kept_mid cfg sh e).input_entry_count = sh.input_entry_count ∧
    (kept_mid cfg sh e).output_entry_count = sh.output_entry_count ∧
    (kept_mid cfg sh e).removed_from_prev_chunk = sh.removed_from_prev_chunk ∧
    (kept_mid cfg sh e).last_encoding = sh.last_encoding ∧
    (kept_mid cfg sh e).delayed_encodings = sh.delayed_encodings ∧
    (kept_mid cfg sh e).output = sh.output ∧
    (kept_mid cfg sh e).opened_components = sh.opened_components := by
  unfold kept_mid
  split <;> simp

theorem step_kept_eq {σ : Type} (cfg : record_filter_cfg σ) (s : Bool)
    (sh : per_shard_t σ) (ts : Nat) (e : trace_entry_t)
    (hgate : ¬(sh.enabled = true ∧ cfg.stop_timestamp ≠ 0 ∧ cfg.stop_timestamp ≤ ts))
    (hkeep : sh.enabled = true →
      (run_filters e cfg.filters sh.filter_shard_data).1 = true) :
    parallel_shard_memref cfg s sh ts e =
      shard_memref_marker cfg s
        (kept_mid cfg { sh with input_entry_count := sh.input_entry_count + 1 } e)
        e true := by
  rw [gate_nofire_eq cfg s sh ts e hgate]
  by_cases hen : sh.enabled = true
  · rw [body_enabled_kept_eq cfg s
        { sh with input_entry_count := sh.input_entry_count + 1 } e
        (cfg.entry_memref_count e) hen (hkeep hen)]
    simp [kept_mid, hen]
  · have henf : sh.enabled = false := by simpa using hen
    rw [body_disabled_eq cfg s
        { sh with input_entry_count := sh.input_entry_count + 1 } e
        (cfg.entry_memref_count e) henf]
    simp [kept_mid, henf]

theorem str_prefix_ne_empty (p q : String) (hp : p.length ≠ 0) : p ++ q ≠ "" := by
  intro hc
  have hl := congrArg String.length hc
  rw [String.length_append] at hl
  simp only [String.length_empty] at hl
  omega

/-- C5 counterexample: a chunk-footer marker rejected by the drop-all
filter is a fatal shard error (false return, non-empty shard error), yet
the global success flag stays true — refuting the claim that every fatal
shard error, in particular every unsupported-operation error, flips the
global success flag to false. -/
theorem C5_counterexample :
    (parallel_shard_memref wit_cfg_drop true wit_shard 0 wit_footer).2.2 = false ∧
    (parallel_shard_memref wit_cfg_drop true wit_shard 0 wit_footer).1.error ≠ "" ∧
    (parallel_shard_memref wit_cfg_drop true wit_shard 0 wit_footer).2.1 = true := by
  decide

/-- C5 amended: the global success flag is monotone (never reset to true by
any step or initialization); sink write failures, filter-initialization
failures and sink-open failures do flip it to false; but every
unsupported-operation error — dropping a chunk footer, dropping a
record-ordinal marker, dropping an instruction-like record with an archive
sink, a chunk footer in a non-archive sink, and a chunk ordinal mismatch —
fails the shard with a non-empty error while leaving the global flag
unchanged. -/
theorem C5_success_flag {σ : Type} (cfg : record_filter_cfg σ) :
    (∀ (s : Bool) (sh : per_shard_t σ) (ts : Nat) (e : trace_entry_t),
      (parallel_shard_memref cfg s sh ts e).2.1 = true → s = true) ∧
    (∀ (nm : String) (arch nul : Bool) (inits : List (σ × String)) (s : Bool),
      (parallel_shard_init_stream cfg nm arch nul inits s).2 = true → s = true) ∧
    (∀ (sh : per_shard_t σ) (s : Bool) (e : trace_entry_t),
      cfg.write_ok e = false →
      (write_trace_entry cfg sh s e).2.1 = false ∧
      (write_trace_entry cfg sh s e).1.error ≠ "") ∧
    (∀ (nm : String) (inits : List (σ × String)) (s : Bool),
      (inits.map (fun fi => fi.2)).all (fun x => x == "") = false →
      (parallel_shard_init_stream cfg nm false false inits s).2 = false) ∧
    (∀ (nm : String) (nul : Bool) (inits : List (σ × String)) (s : Bool),
      cfg.open_component_err (chunk_name 0) ≠ "" →
      (parallel_shard_init_stream cfg nm true nul inits s).2 = false ∧
      (parallel_shard_init_stream cfg nm true nul inits s).1.error =
        "Failure in opening writer: " ++ cfg.open_component_err (chunk_name 0)) ∧
    (∀ (s : Bool) (sh : per_shard_t σ) (ts : Nat) (e : trace_entry_t),
      ¬(sh.enabled = true ∧ cfg.stop_timestamp ≠ 0 ∧ cfg.stop_timestamp ≤ ts) →
      sh.enabled = true →
      (run_filters e cfg.filters sh.filter_shard_data).1 = false →
      e.type = trace_type_t.TRACE_TYPE_MARKER →
      e.size = TRACE_MARKER_TYPE_CHUNK_FOOTER →
      (parallel_shard_memref cfg s sh ts e).2.1 = s ∧
      (parallel_shard_memref cfg s sh ts e).2.2 = false ∧
      (parallel_shard_memref cfg s sh ts e).1.error ≠ "") ∧
    (∀ (s : Bool) (sh : per_shard_t σ) (ts : Nat) (e : trace_entry_t),
      ¬(sh.enabled = true ∧ cfg.stop_timestamp ≠ 0 ∧ cfg.stop_timestamp ≤ ts) →
      sh.enabled = true →
      (run_filters e cfg.filters sh.filter_shard_data).1 = false →
      e.type = trace_type_t.TRACE_TYPE_MARKER →
      e.size = TRACE_MARKER_TYPE_RECORD_ORDINAL →
      (parallel_shard_memref cfg s sh ts e).2.1 = s ∧
      (parallel_shard_memref cfg s sh ts e).2.2 = false ∧
      (parallel_shard_memref cfg s sh ts e).1.error ≠ "") ∧
    (∀ (s : Bool) (sh : per_shard_t σ) (ts : Nat) (e : trace_entry_t),
      ¬(sh.enabled = true ∧ cfg.stop_timestamp ≠ 0 ∧ cfg.stop_timestamp ≤ ts) →
      sh.enabled = true →
      (run_filters e cfg.filters sh.filter_shard_data).1 = false →
      is_any_instr_type e.type = true →
      sh.has_archive = true →
      (parallel_shard_memref cfg s sh ts e).2.1 = s ∧
      (parallel_shard_memref cfg s sh ts e).2.2 = false ∧
      (parallel_shard_memref cfg s sh ts e).1.error ≠ "") ∧
    (∀ (s : Bool) (sh : per_shard_t σ) (ts : Nat) (e : trace_entry_t),
      ¬(sh.enabled = true ∧ cfg.stop_timestamp ≠ 0 ∧ cfg.stop_timestamp ≤ ts) →
      (sh.enabled = true →
        (run_filters e cfg.filters sh.filter_shard_data).1 = true) →
      e.type = trace_type_t.TRACE_TYPE_MARKER →
      e.size = TRACE_MARKER_TYPE_CHUNK_FOOTER →
      sh.has_archive = false →
      (parallel_shard_memref cfg s sh ts e).2.1 = s ∧
      (parallel_shard_memref cfg s sh ts e).2.2 = false ∧
      (parallel_shard_memref cfg s sh ts e).1.error ≠ "") ∧
    (∀ (s : Bool) (sh : per_shard_t σ) (ts : Nat) (e : trace_entry_t),
      ¬(sh.enabled = true ∧ cfg.stop_timestamp ≠ 0 ∧ cfg.stop_timestamp ≤ ts) →
      (sh.enabled = true →
        (run_filters e cfg.filters sh.filter_shard_data).1 = true) →
      e.type = trace_type_t.TRACE_TYPE_MARKER →
      e.size = TRACE_MARKER_TYPE_CHUNK_FOOTER →
      sh.has_archive = true →
      e.addr ≠ sh.chunk_ordinal →
      (parallel_shard_memref cfg s sh ts e).2.1 = s ∧
      (parallel_shard_memref cfg s sh ts e).2.2 = false ∧
      (parallel_shard_memref cfg s sh ts e).1.error ≠ "") := by
  refine ⟨?_, ?_, ?_, ?_, ?_, ?_, ?_, ?_, ?_, ?_⟩
  · intro s sh ts e h
    exact succ_mono_step cfg sh s ts e h
  · intro nm arch nul inits s h
    exact succ_mono_init cfg nm arch nul inits s h
  · intro sh s e h
    refine ⟨?_, ?_⟩
    · simp [write_trace_entry, h]
    · simp only [write_trace_entry, h]
      simp only [Bool.false_eq_true, if_false]
      exact str_prefix_ne_empty _ _ (by decide)
  · intro nm inits s hall
    simp [parallel_shard_init_stream, init_fold_spec, hall]
  · intro nm nul inits s hop
    constructor
    · simp [parallel_shard_init_stream, open_new_chunk, init_per_shard, hop]
    · simp [parallel_shard_init_stream, open_new_chunk, init_per_shard, hop]
  · intro s sh ts e hgate hen hdrop hm h21
    have hnia : ¬(is_any_instr_type e.type = true ∧ sh.has_archive = true) := by
      rw [hm]; simp [is_any_instr_type, type_is_instr]
    rw [gate_nofire_eq cfg s sh ts e hgate]
    rw [body_dropped_eq cfg s
        { sh with input_entry_count := sh.input_entry_count + 1 } e
        (cfg.entry_memref_count e) hen hdrop hnia]
    rw [marker_footer_dropped_eq cfg s _ e hm h21]
    simp
  · intro s sh ts e hgate hen hdrop hm h22
    have hnia : ¬(is_any_instr_type e.type = true ∧ sh.has_archive = true) := by
      rw [hm]; simp [is_any_instr_type, type_is_instr]
    rw [gate_nofire_eq cfg s sh ts e hgate]
    rw [body_dropped_eq cfg s
        { sh with input_entry_count := sh.input_entry_count + 1 } e
        (cfg.entry_memref_count e) hen hdrop hnia]
    rw [marker_ordinal_dropped_eq cfg s _ e hm h22]
    simp
  · intro s sh ts e hgate hen hdrop hinstr harch
    have hg2 : ¬(cfg.stop_timestamp ≠ 0 ∧ cfg.stop_timestamp ≤ ts) := fun hc =>
      hgate ⟨hen, hc⟩
    simp [parallel_shard_memref, shard_memref_body, hg2, hen, hinstr, harch,
      hdrop]
  · intro s sh ts e hgate hkeep hm h21 harch
    have h9 : e.size ≠ TRACE_MARKER_TYPE_FILETYPE := by
      rw [h21]; decide
    rw [step_kept_eq cfg s sh ts e hgate hkeep]
    simp [shard_memref_marker, hm, h21, h9, kept_mid_fields, harch,
      TRACE_MARKER_TYPE_FILETYPE, TRACE_MARKER_TYPE_CHUNK_FOOTER]
  · intro s sh ts e hgate hkeep hm h21 harch hne
    have h9 : e.size ≠ TRACE_MARKER_TYPE_FILETYPE := by
      rw [h21]; decide
    have herr : (parallel_shard_memref cfg s sh ts e).1.error =
        "Chunk ordinal mismatch: found " ++ toString e.addr ++ " expected " ++
          toString sh.chunk_ordinal := by
      rw [step_kept_eq cfg s sh ts e hgate hkeep]
      simp [shard_memref_marker, hm, h21, h9, kept_mid_fields, harch, hne,
        TRACE_MARKER_TYPE_FILETYPE, TRACE_MARKER_TYPE_CHUNK_FOOTER]
    refine ⟨?_, ?_, ?_⟩
    · rw [step_kept_eq cfg s sh ts e hgate hkeep]
      simp [shard_memref_marker, hm, h21, h9, kept_mid_fields, harch, hne,
        TRACE_MARKER_TYPE_FILETYPE, TRACE_MARKER_TYPE_CHUNK_FOOTER]
    · rw [step_kept_eq cfg s sh ts e hgate hkeep]
      simp [shard_memref_marker, hm, h21, h9, kept_mid_fields, harch, hne,
        TRACE_MARKER_TYPE_FILETYPE, TRACE_MARKER_TYPE_CHUNK_FOOTER]
    · rw [herr]
      intro hc
      have hl := congrArg String.length hc
      rw [String.length_append, String.length_append, String.length_append,
        String.length_empty] at hl
      have hlen : ("Chunk ordinal mismatch: found ").length = 30 := by decide
      rw [hlen] at hl
      omega

/-- C5 witness: concrete instances of the amended behavior — a failed
write flips the flag with a non-empty error; a failed archive open at
initialization flips the flag; and every unsupported-operation error path
(dropped footer, dropped ordinal marker, dropped instruction with the
archive sink, footer in a non-archive sink, footer ordinal mismatch) fails
the shard while keeping the flag true. -/
theorem C5_success_flag_witness :
    wit_cfg_write_fail.write_ok wit_read = false ∧
    ((write_trace_entry wit_cfg_write_fail wit_shard true wit_read).2.1 = false ∧
      (write_trace_entry wit_cfg_write_fail wit_shard true wit_read).1.error ≠ "") ∧
    wit_cfg_open_fail.open_component_err (chunk_name 0) ≠ "" ∧
    ((parallel_shard_init_stream wit_cfg_open_fail "t.zip" true false [] true).2 =
        false ∧
      (parallel_shard_init_stream wit_cfg_open_fail "t.zip" true false []
          true).1.error =
        "Failure in opening writer: " ++
          wit_cfg_open_fail.open_component_err (chunk_name 0)) ∧
    ((parallel_shard_memref wit_cfg_drop true wit_shard 0 wit_footer).2.1 = true ∧
      (parallel_shard_memref wit_cfg_drop true wit_shard 0 wit_footer).2.2 = false ∧
      (parallel_shard_memref wit_cfg_drop true wit_shard 0 wit_footer).1.error ≠
        "") ∧
    ((parallel_shard_memref wit_cfg_drop true wit_shard 0 wit_ord).2.1 = true ∧
      (parallel_shard_memref wit_cfg_drop true wit_shard 0 wit_ord).2.2 = false ∧
      (parallel_shard_memref wit_cfg_drop true wit_shard 0 wit_ord).1.error ≠
        "") ∧
    ((parallel_shard_memref wit_cfg_drop true wit_shard_archive 0 wit_instr).2.1 =
        true ∧
      (parallel_shard_memref wit_cfg_drop true wit_shard_archive 0 wit_instr).2.2 =
        false ∧
      (parallel_shard_memref wit_cfg_drop true wit_shard_archive 0
          wit_instr).1.error ≠ "") ∧
    ((parallel_shard_memref wit_cfg_keep true wit_shard 0 wit_footer).2.1 = true ∧
      (parallel_shard_memref wit_cfg_keep true wit_shard 0 wit_footer).2.2 = false ∧
      (parallel_shard_memref wit_cfg_keep true wit_shard 0 wit_footer).1.error ≠
        "") ∧
    ((parallel_shard_memref wit_cfg_keep true wit_shard_archive 0
        { wit_footer with addr := 5 }).2.1 = true ∧
      (parallel_shard_memref wit_cfg_keep true wit_shard_archive 0
          { wit_footer with addr := 5 }).2.2 = false ∧
      (parallel_shard_memref wit_cfg_keep true wit_shard_archive 0
          { wit_footer with addr := 5 }).1.error ≠ "") :=
  ⟨by decide,
    (C5_success_flag wit_cfg_write_fail).2.2.1 wit_shard true wit_read (by decide),
    by decide,
    (C5_success_flag wit_cfg_open_fail).2.2.2.2.1 "t.zip" false [] true (by decide),
    (C5_success_flag wit_cfg_drop).2.2.2.2.2.1 true wit_shard 0 wit_footer
      (by decide) (by decide) (by decide) (by decide) (by decide),
    (C5_success_flag wit_cfg_drop).2.2.2.2.2.2.1 true wit_shard 0 wit_ord
      (by decide) (by decide) (by decide) (by decide) (by decide),
    (C5_success_flag wit_cfg_drop).2.2.2.2.2.2.2.1 true wit_shard_archive 0
      wit_instr (by decide) (by decide) (by decide) (by decide) (by decide),
    (C5_success_flag wit_cfg_keep).2.2.2.2.2.2.2.2.1 true wit_shard 0 wit_footer
      (by decide) (fun _ => by decide) (by decide) (by decide) (by decide),
    (C5_success_flag wit_cfg_keep).2.2.2.2.2.2.2.2.2 true wit_shard_archive 0
      { wit_footer with addr := 5 } (by decide) (fun _ => by decide) (by decide)
      (by decide) (by decide) (by decide)⟩

/-- C8 counterexample: at a concrete gate transition the synthetic boundary
marker is counted in the output tally (output counter goes to 2: marker
plus the kept record) and not in the input tally (input counter counts only
the one actual input record) — the opposite of the claim. -/
theorem C8_counterexample :
    (parallel_shard_memref wit_cfg_gate_keep true wit_shard 7
        wit_read).1.output_entry_count = 2 ∧
    (parallel_shard_memref wit_cfg_gate_keep true wit_shard 7
        wit_read).1.input_entry_count = 1 ∧
    ¬((parallel_shard_memref wit_cfg_gate_keep true wit_shard 7
          wit_read).1.output_entry_count = 1 ∧
      (parallel_shard_memref wit_cfg_gate_keep true wit_shard 7
          wit_read).1.input_entry_count = 2) := by
  decide

/-- C8 amended: the synthetic filter-endpoint boundary marker counts toward
the shard's output tally only: at the transition it is written through the
common write path, incrementing the output record counter by one before the
triggering record is processed, while the input record counter always
advances by exactly one per actual input record and never counts the
synthetic marker. -/
theorem C8_boundary_marker_counts {σ : Type} (cfg : record_filter_cfg σ) :
    (∀ (s : Bool) (sh : per_shard_t σ) (ts : Nat) (e : trace_entry_t),
      (sh.enabled = true ∧ cfg.stop_timestamp ≠ 0 ∧ cfg.stop_timestamp ≤ ts) →
      cfg.write_ok filter_boundary_entry = true →
      parallel_shard_memref cfg s sh ts e =
        shard_memref_body cfg s
          { sh with
            input_entry_count := sh.input_entry_count + 1,
            enabled := false,
            output := sh.output ++ [filter_boundary_entry],
            output_entry_count := sh.output_entry_count + 1 } e
          (cfg.entry_memref_count e)) ∧
    (∀ (s : Bool) (sh : per_shard_t σ) (ts : Nat) (e : trace_entry_t),
      (parallel_shard_memref cfg s sh ts e).1.input_entry_count =
        sh.input_entry_count + 1) := by
  constructor
  · intro s sh ts e hfire hw
    exact gate_fire_eq cfg s sh ts e hfire hw
  · intro s sh ts e
    by_cases hfire : sh.enabled = true ∧ cfg.stop_timestamp ≠ 0 ∧
        cfg.stop_timestamp ≤ ts
    · simp only [parallel_shard_memref]
      rw [if_pos (by simpa using hfire)]
      split
      · simp [wte_preserves]
      · simp [body_preserves, wte_preserves]
    · rw [gate_nofire_eq cfg s sh ts e hfire]
      simp [body_preserves]

/-- C8 witness: the amended counting at the concrete transition. -/
theorem C8_boundary_marker_counts_witness :
    (wit_shard.enabled = true ∧ wit_cfg_gate_keep.stop_timestamp ≠ 0 ∧
      wit_cfg_gate_keep.stop_timestamp ≤ 7) ∧
    parallel_shard_memref wit_cfg_gate_keep true wit_shard 7 wit_read =
      shard_memref_body wit_cfg_gate_keep true
        { wit_shard with
          input_entry_count := wit_shard.input_entry_count + 1,
          enabled := false,
          output := wit_shard.output ++ [filter_boundary_entry],
          output_entry_count := wit_shard.output_entry_count + 1 } wit_read
        (wit_cfg_gate_keep.entry_memref_count wit_read) ∧
    (parallel_shard_memref wit_cfg_gate_keep true wit_shard 7
        wit_read).1.input_entry_count = wit_shard.input_entry_count + 1 :=
  ⟨by decide,
    (C8_boundary_marker_counts wit_cfg_gate_keep).1 true wit_shard 7 wit_read
      (by decide) (by decide),
    (C8_boundary_marker_counts wit_cfg_gate_keep).2 true wit_shard 7 wit_read⟩

/-- C9 counterexample: when two filters fail to initialize, the retained
shard error is the second (last) filter's message, not the first — refuting
first-error-wins across initialization. -/
theorem C9_counterexample :
    (parallel_shard_init_stream wit_cfg_keep "t" false false
        [((), "A"), ((), "B")] true).1.error =
      "Failure in initializing filter function B" ∧
    ¬((parallel_shard_init_stream wit_cfg_keep "t" false false
        [((), "A"), ((), "B")] true).1.error =
      "Failure in initializing filter function A") := by
  decide

/-- C9 amended: error assignments overwrite: at initialization the retained
message is the LAST failing filter's (all filter states are still pushed
and the success flag is false as soon as any filter failed); and during
per-record processing an error site (here: dropped chunk footer) assigns
its message over whatever error the shard already carried. -/
theorem C9_error_overwrite {σ : Type} (cfg : record_filter_cfg σ) :
    (∀ (nm : String) (inits : List (σ × String)) (s : Bool),
      (parallel_shard_init_stream cfg nm false false inits s).1.error =
        (if (inits.map (fun fi => fi.2)).all (fun x => x == "") then ""
          else "Failure in initializing filter function " ++
            last_nonempty (inits.map (fun fi => fi.2))) ∧
      (parallel_shard_init_stream cfg nm false false inits s).2 =
        (s && (inits.map (fun fi => fi.2)).all (fun x => x == "")) ∧
      (parallel_shard_init_stream cfg nm false false inits s).1.filter_shard_data =
        inits.map (fun fi => fi.1)) ∧
    (∀ (s : Bool) (sh : per_shard_t σ) (ts : Nat) (e : trace_entry_t),
      ¬(sh.enabled = true ∧ cfg.stop_timestamp ≠ 0 ∧ cfg.stop_timestamp ≤ ts) →
      sh.enabled = true →
      (run_filters e cfg.filters sh.filter_shard_data).1 = false →
      e.type = trace_type_t.TRACE_TYPE_MARKER →
      e.size = TRACE_MARKER_TYPE_CHUNK_FOOTER →
      (parallel_shard_memref cfg s sh ts e).1.error =
        "Removing chunk footers is not supported") := by
  constructor
  · intro nm inits s
    simp [parallel_shard_init_stream, init_fold_spec, init_per_shard]
  · intro s sh ts e hgate hen hdrop hm h21
    have hnia : ¬(is_any_instr_type e.type = true ∧ sh.has_archive = true) := by
      rw [hm]; simp [is_any_instr_type, type_is_instr]
    rw [gate_nofire_eq cfg s sh ts e hgate]
    rw [body_dropped_eq cfg s
        { sh with input_entry_count := sh.input_entry_count + 1 } e
        (cfg.entry_memref_count e) hen hdrop hnia]
    rw [marker_footer_dropped_eq cfg s _ e hm h21]

theorem marker_chunk_shape {σ : Type} (cfg : record_filter_cfg σ) (s : Bool)
    (sh : per_shard_t σ) (e : trace_entry_t) (out : Bool)
    (hopen : ∀ nm, cfg.open_component_err nm = "") :
    ((shard_memref_marker cfg s sh e out).1.chunk_ordinal = sh.chunk_ordinal ∧
      (shard_memref_marker cfg s sh e out).1.opened_components =
        sh.opened_components) ∨
    ((shard_memref_marker cfg s sh e out).1.chunk_ordinal = sh.chunk_ordinal + 1 ∧
      (shard_memref_marker cfg s sh e out).1.opened_components =
        sh.opened_components ++ [chunk_name (sh.chunk_ordinal + 1)]) := by
  simp only [shard_memref_marker]
  by_cases hm : e.type = trace_type_t.TRACE_TYPE_MARKER
  · rw [if_pos hm]
    by_cases h9 : e.size = TRACE_MARKER_TYPE_FILETYPE
    · rw [if_pos h9]
      exact Or.inl ⟨(tail_preserves cfg sh s _ out).2.2.1,
        (tail_preserves cfg sh s _ out).2.2.2.1⟩
    · rw [if_neg h9]
      by_cases h21 : e.size = TRACE_MARKER_TYPE_CHUNK_FOOTER
      · rw [if_pos h21]
        by_cases hout : out = false
        · rw [if_pos hout]
          exact Or.inl ⟨rfl, rfl⟩
        · rw [if_neg hout]
          by_cases harch : sh.has_archive = false
          · rw [if_pos harch]
            exact Or.inl ⟨rfl, rfl⟩
          · rw [if_neg harch]
            by_cases haddr : e.addr ≠ sh.chunk_ordinal
            · rw [if_pos haddr]
              exact Or.inl ⟨rfl, rfl⟩
            · rw [if_neg haddr]
              by_cases hwf : (write_trace_entry cfg sh s e).2.2 = false
              · rw [if_pos hwf]
                exact Or.inl ⟨(wte_preserves cfg sh s e).2.2.1,
                  (wte_preserves cfg sh s e).2.2.2.1⟩
              · rw [if_neg hwf]
                right
                simp [open_new_chunk, hopen, wte_preserves]
      · rw [if_neg h21]
        by_cases h22 : e.size = TRACE_MARKER_TYPE_RECORD_ORDINAL
        · rw [if_pos h22]
          by_cases hout : out = false
          · rw [if_pos hout]
            exact Or.inl ⟨rfl, rfl⟩
          · rw [if_neg hout]
            exact Or.inl ⟨(tail_preserves cfg _ s _ out).2.2.1,
              (tail_preserves cfg _ s _ out).2.2.2.1⟩
        · rw [if_neg h22]
          exact Or.inl ⟨(tail_preserves cfg sh s e out).2.2.1,
            (tail_preserves cfg sh s e out).2.2.2.1⟩
  · rw [if_neg hm]
    exact Or.inl ⟨(tail_preserves cfg sh s e out).2.2.1,
      (tail_preserves cfg sh s e out).2.2.2.1⟩

theorem body_chunk_shape {σ : Type} (cfg : record_filter_cfg σ) (s : Bool)
    (sh : per_shard_t σ) (e : trace_entry_t) (rc : Nat)
    (hopen : ∀ nm, cfg.open_component_err nm = "") :
    ((shard_memref_body cfg s sh e rc).1.chunk_ordinal = sh.chunk_ordinal ∧
      (shard_memref_body cfg s sh e rc).1.opened_components =
        sh.opened_components) ∨
    ((shard_memref_body cfg s sh e rc).1.chunk_ordinal = sh.chunk_ordinal + 1 ∧
      (shard_memref_body cfg s sh e rc).1.opened_components =
        sh.opened_components ++ [chunk_name (sh.chunk_ordinal + 1)]) := by
  have key : ∀ (mid : per_shard_t σ) (out : Bool) (s2 : Bool),
      mid.chunk_ordinal = sh.chunk_ordinal →
      mid.opened_components = sh.opened_components →
      ((shard_memref_marker cfg s2 mid e out).1.chunk_ordinal = sh.chunk_ordinal ∧
        (shard_memref_marker cfg s2 mid e out).1.opened_components =
          sh.opened_components) ∨
      ((shard_memref_marker cfg s2 mid e out).1.chunk_ordinal =
          sh.chunk_ordinal + 1 ∧
        (shard_memref_marker cfg s2 mid e out).1.opened_components =
          sh.opened_components ++ [chunk_name (sh.chunk_ordinal + 1)]) := by
    intro mid out s2 h1 h2
    rcases marker_chunk_shape cfg s2 mid e out hopen with ⟨a, b⟩ | ⟨a, b⟩
    · left
      rw [a, b, h1, h2]
      exact ⟨rfl, rfl⟩
    · right
      rw [a, b, h1, h2]
      exact ⟨rfl, rfl⟩
  simp only [shard_memref_body]
  split_ifs <;> first
    | exact Or.inl ⟨rfl, rfl⟩
    | exact key _ _ _ rfl rfl

theorem step_has_archive {σ : Type} (cfg : record_filter_cfg σ) (s : Bool)
    (sh : per_shard_t σ) (ts : Nat) (e : trace_entry_t) :
    (parallel_shard_memref cfg s sh ts e).1.has_archive = sh.has_archive := by
  by_cases hfire : sh.enabled = true ∧ cfg.stop_timestamp ≠ 0 ∧
      cfg.stop_timestamp ≤ ts
  · simp only [parallel_shard_memref]
    rw [if_pos (by simpa using hfire)]
    split
    · simp [wte_preserves]
    · simp [body_preserves, wte_preserves]
  · rw [gate_nofire_eq cfg s sh ts e hfire]
    simp [body_preserves]

theorem step_chunk_shape {σ : Type} (cfg : record_filter_cfg σ) (s : Bool)
    (sh : per_shard_t σ) (ts : Nat) (e : trace_entry_t)
    (hopen : ∀ nm, cfg.open_component_err nm = "") :
    ((parallel_shard_memref cfg s sh ts e).1.chunk_ordinal = sh.chunk_ordinal ∧
      (parallel_shard_memref cfg s sh ts e).1.opened_components =
        sh.opened_components) ∨
    ((parallel_shard_memref cfg s sh ts e).1.chunk_ordinal = sh.chunk_ordinal + 1 ∧
      (parallel_shard_memref cfg s sh ts e).1.opened_components =
        sh.opened_components ++ [chunk_name (sh.chunk_ordinal + 1)]) := by
  have key : ∀ (mid : per_shard_t σ) (s2 : Bool) (rc : Nat),
      mid.chunk_ordinal = sh.chunk_ordinal →
      mid.opened_components = sh.opened_components →
      ((shard_memref_body cfg s2 mid e rc).1.chunk_ordinal = sh.chunk_ordinal ∧
        (shard_memref_body cfg s2 mid e rc).1.opened_components =
          sh.opened_components) ∨
      ((shard_memref_body cfg s2 mid e rc).1.chunk_ordinal =
          sh.chunk_ordinal + 1 ∧
        (shard_memref_body cfg s2 mid e rc).1.opened_components =
          sh.opened_components ++ [chunk_name (sh.chunk_ordinal + 1)]) := by
    intro mid s2 rc h1 h2
    rcases body_chunk_shape cfg s2 mid e rc hopen with ⟨a, b⟩ | ⟨a, b⟩
    · left
      rw [a, b, h1, h2]
      exact ⟨rfl, rfl⟩
    · right
      rw [a, b, h1, h2]
      exact ⟨rfl, rfl⟩
  by_cases hfire : sh.enabled = true ∧ cfg.stop_timestamp ≠ 0 ∧
      cfg.stop_timestamp ≤ ts
  · simp only [parallel_shard_memref]
    rw [if_pos (by simpa using hfire)]
    split
    · exact Or.inl ⟨by simp [wte_preserves], by simp [wte_preserves]⟩
    · refine key _ _ _ ?_ ?_
      · simp [wte_preserves]
      · simp [wte_preserves]
  · rw [gate_nofire_eq cfg s sh ts e hfire]
    exact key _ _ _ rfl rfl

theorem run_archive_inv {σ : Type} (cfg : record_filter_cfg σ)
    (hopen : ∀ nm, cfg.open_component_err nm = "") :
    ∀ (inputs : List (Nat × trace_entry_t)) (sh : per_shard_t σ) (s : Bool),
    archive_inv sh → archive_inv (run_shard cfg sh s inputs).1
  | [], _, _, h => h
  | (ts, e) :: rest, sh, s, h => by
    simp only [run_shard]
    apply run_archive_inv cfg hopen rest
    intro harch
    have harch0 : sh.has_archive = true := by
      rw [← step_has_archive cfg s sh ts e]
      exact harch
    rcases step_chunk_shape cfg s sh ts e hopen with ⟨h1, h2⟩ | ⟨h1, h2⟩
    · rw [h1, h2]
      exact h harch0
    · rw [h1, h2, h harch0]
      simp [List.range_succ]

theorem init_fold_chunk {σ : Type} :
    ∀ (inits : List (σ × String)) (acc : per_shard_t σ × Bool),
    (init_filter_fold inits acc).1.chunk_ordinal = acc.1.chunk_ordinal ∧
    (init_filter_fold inits acc).1.opened_components = acc.1.opened_components ∧
    (init_filter_fold inits acc).1.has_archive = acc.1.has_archive
  | [], _ => ⟨rfl, rfl, rfl⟩
  | fi :: rest, acc => by
    simp only [init_filter_fold]
    rcases init_fold_chunk rest
        (if fi.2 ≠ "" then
          ({ { acc.1 with
                filter_shard_data := acc.1.filter_shard_data ++ [fi.1] } with
              error := "Failure in initializing filter function " ++ fi.2 },
            false)
        else
          ({ acc.1 with
              filter_shard_data := acc.1.filter_shard_data ++ [fi.1] }, acc.2))
      with ⟨h1, h2, h3⟩
    refine ⟨h1.trans ?_, h2.trans ?_, h3.trans ?_⟩ <;> split <;> simp

theorem init_archive_inv {σ : Type} (cfg : record_filter_cfg σ) (nm : String)
    (nul : Bool) (inits : List (σ × String)) (s : Bool)
    (hopen : ∀ x, cfg.open_component_err x = "") :
    archive_inv (parallel_shard_init_stream cfg nm true nul inits s).1 := by
  intro _
  simp [parallel_shard_init_stream, open_new_chunk, init_per_shard, hopen,
    init_fold_chunk, List.range_succ]
  split <;> simp [init_fold_chunk]

/-- C3: chunk-footer handling: a footer marked for dropping fails the
shard; a footer in a non-archive sink fails the shard; a recorded ordinal
different from the tracked one fails the shard with an error naming found
and expected; otherwise the footer is written unchanged, the tracked
ordinal is incremented and the next component is opened under the fixed
prefix plus 4-digit zero-padded ordinal scheme, with open failures
propagated as the shard error — so, whenever every component open
succeeds, the opened components of an archive shard are exactly the names
of ordinals 0 up to the tracked ordinal, strictly increasing from 0 with no
gaps, a property established at initialization and preserved by every
processed record. -/
theorem C3_chunk_footer {σ : Type} (cfg : record_filter_cfg σ) :
    (∀ (s : Bool) (sh : per_shard_t σ) (ts : Nat) (e : trace_entry_t),
      ¬(sh.enabled = true ∧ cfg.stop_timestamp ≠ 0 ∧ cfg.stop_timestamp ≤ ts) →
      sh.enabled = true →
      (run_filters e cfg.filters sh.filter_shard_data).1 = false →
      e.type = trace_type_t.TRACE_TYPE_MARKER →
      e.size = TRACE_MARKER_TYPE_CHUNK_FOOTER →
      (parallel_shard_memref cfg s sh ts e).2.2 = false ∧
      (parallel_shard_memref cfg s sh ts e).1.error =
        "Removing chunk footers is not supported") ∧
    (∀ (s : Bool) (sh : per_shard_t σ) (ts : Nat) (e : trace_entry_t),
      ¬(sh.enabled = true ∧ cfg.stop_timestamp ≠ 0 ∧ cfg.stop_timestamp ≤ ts) →
      (sh.enabled = true →
        (run_filters e cfg.filters sh.filter_shard_data).1 = true) →
      e.type = trace_type_t.TRACE_TYPE_MARKER →
      e.size = TRACE_MARKER_TYPE_CHUNK_FOOTER →
      sh.has_archive = false →
      (parallel_shard_memref cfg s sh ts e).2.2 = false ∧
      (parallel_shard_memref cfg s sh ts e).1.error =
        "Chunks found in non-archive output") ∧
    (∀ (s : Bool) (sh : per_shard_t σ) (ts : Nat) (e : trace_entry_t),
      ¬(sh.enabled = true ∧ cfg.stop_timestamp ≠ 0 ∧ cfg.stop_timestamp ≤ ts) →
      (sh.enabled = true →
        (run_filters e cfg.filters sh.filter_shard_data).1 = true) →
      e.type = trace_type_t.TRACE_TYPE_MARKER →
      e.size = TRACE_MARKER_TYPE_CHUNK_FOOTER →
      sh.has_archive = true →
      e.addr ≠ sh.chunk_ordinal →
      (parallel_shard_memref cfg s sh ts e).2.2 = false ∧
      (parallel_shard_memref cfg s sh ts e).1.error =
        "Chunk ordinal mismatch: found " ++ toString e.addr ++ " expected " ++
          toString sh.chunk_ordinal) ∧
    (∀ (s : Bool) (sh : per_shard_t σ) (ts : Nat) (e : trace_entry_t),
      ¬(sh.enabled = true ∧ cfg.stop_timestamp ≠ 0 ∧ cfg.stop_timestamp ≤ ts) →
      (sh.enabled = true →
        (run_filters e cfg.filters sh.filter_shard_data).1 = true) →
      e.type = trace_type_t.TRACE_TYPE_MARKER →
      e.size = TRACE_MARKER_TYPE_CHUNK_FOOTER →
      sh.has_archive = true →
      e.addr = sh.chunk_ordinal →
      cfg.write_ok e = true →
      cfg.open_component_err (chunk_name (sh.chunk_ordinal + 1)) = "" →
      (parallel_shard_memref cfg s sh ts e).2.2 = true ∧
      (parallel_shard_memref cfg s sh ts e).1.output = sh.output ++ [e] ∧
      (parallel_shard_memref cfg s sh ts e).1.chunk_ordinal =
        sh.chunk_ordinal + 1 ∧
      (parallel_shard_memref cfg s sh ts e).1.opened_components =
        sh.opened_components ++ [chunk_name (sh.chunk_ordinal + 1)] ∧
      (parallel_shard_memref cfg s sh ts e).1.error = sh.error) ∧
    (∀ (s : Bool) (sh : per_shard_t σ) (ts : Nat) (e : trace_entry_t),
      ¬(sh.enabled = true ∧ cfg.stop_timestamp ≠ 0 ∧ cfg.stop_timestamp ≤ ts) →
      (sh.enabled = true →
        (run_filters e cfg.filters sh.filter_shard_data).1 = true) →
      e.type = trace_type_t.TRACE_TYPE_MARKER →
      e.size = TRACE_MARKER_TYPE_CHUNK_FOOTER →
      sh.has_archive = true →
      e.addr = sh.chunk_ordinal →
      cfg.write_ok e = true →
      cfg.open_component_err (chunk_name (sh.chunk_ordinal + 1)) ≠ "" →
      (parallel_shard_memref cfg s sh ts e).2.2 = false ∧
      (parallel_shard_memref cfg s sh ts e).1.error =
        cfg.open_component_err (chunk_name (sh.chunk_ordinal + 1))) ∧
    (∀ n : Nat, chunk_name n = TRACE_CHUNK_PREFIX_VAL ++ pad4 n) ∧
    ((∀ nm, cfg.open_component_err nm = "") →
      (∀ (inputs : List (Nat × trace_entry_t)) (sh : per_shard_t σ) (s : Bool),
        archive_inv sh → archive_inv (run_shard cfg sh s inputs).1) ∧
      (∀ (nm : String) (nul : Bool) (inits : List (σ × String)) (s : Bool),
        archive_inv (parallel_shard_init_stream cfg nm true nul inits s).1)) := by
  have h9 : ∀ e : trace_entry_t, e.size = TRACE_MARKER_TYPE_CHUNK_FOOTER →
      e.size ≠ TRACE_MARKER_TYPE_FILETYPE := by
    intro e h
    rw [h]; decide
  refine ⟨?_, ?_, ?_, ?_, ?_, fun _ => rfl, ?_⟩
  · intro s sh ts e hgate hen hdrop hm h21
    have hnia : ¬(is_any_instr_type e.type = true ∧ sh.has_archive = true) := by
      rw [hm]; simp [is_any_instr_type, type_is_instr]
    rw [gate_nofire_eq cfg s sh ts e hgate]
    rw [body_dropped_eq cfg s
        { sh with input_entry_count := sh.input_entry_count + 1 } e
        (cfg.entry_memref_count e) hen hdrop hnia]
    rw [marker_footer_dropped_eq cfg s _ e hm h21]
    simp
  · intro s sh ts e hgate hkeep hm h21 harch
    rw [step_kept_eq cfg s sh ts e hgate hkeep]
    simp [shard_memref_marker, hm, h21, h9 e h21, kept_mid_fields, harch,
      TRACE_MARKER_TYPE_FILETYPE, TRACE_MARKER_TYPE_CHUNK_FOOTER]
  · intro s sh ts e hgate hkeep hm h21 harch hne
    rw [step_kept_eq cfg s sh ts e hgate hkeep]
    simp [shard_memref_marker, hm, h21, h9 e h21, kept_mid_fields, harch, hne,
      TRACE_MARKER_TYPE_FILETYPE, TRACE_MARKER_TYPE_CHUNK_FOOTER]
  · intro s sh ts e hgate hkeep hm h21 harch haddr hw hop
    rw [step_kept_eq cfg s sh ts e hgate hkeep]
    simp [shard_memref_marker, write_trace_entry, open_new_chunk, hm, h21,
      h9 e h21, kept_mid_fields, harch, haddr, hw, hop,
      TRACE_MARKER_TYPE_FILETYPE, TRACE_MARKER_TYPE_CHUNK_FOOTER]
  · intro s sh ts e hgate hkeep hm h21 harch haddr hw hop
    rw [step_kept_eq cfg s sh ts e hgate hkeep]
    simp [shard_memref_marker, write_trace_entry, open_new_chunk, hm, h21,
      h9 e h21, kept_mid_fields, harch, haddr, hw, hop,
      TRACE_MARKER_TYPE_FILETYPE, TRACE_MARKER_TYPE_CHUNK_FOOTER]
  · intro hopen
    exact ⟨fun inputs sh s h => run_archive_inv cfg hopen inputs sh s h,
      fun nm nul inits s => init_archive_inv cfg nm nul inits s hopen⟩

/-- C3 witness: on the concrete archive shard a footer with matching
ordinal 0 rotates to component chunk.0001; a mismatched footer fails with
the found/expected message; and the archive invariant holds after a
concrete run. -/
theorem C3_chunk_footer_witness :
    wit_shard_archive.has_archive = true ∧
    wit_footer.addr = wit_shard_archive.chunk_ordinal ∧
    ((parallel_shard_memref wit_cfg_keep true wit_shard_archive 0 wit_footer).2.2 =
        true ∧
      (parallel_shard_memref wit_cfg_keep true wit_shard_archive 0
          wit_footer).1.output = wit_shard_archive.output ++ [wit_footer] ∧
      (parallel_shard_memref wit_cfg_keep true wit_shard_archive 0
          wit_footer).1.chunk_ordinal = wit_shard_archive.chunk_ordinal + 1 ∧
      (parallel_shard_memref wit_cfg_keep true wit_shard_archive 0
          wit_footer).1.opened_components =
        wit_shard_archive.opened_components ++
          [chunk_name (wit_shard_archive.chunk_ordinal + 1)] ∧
      (parallel_shard_memref wit_cfg_keep true wit_shard_archive 0
          wit_footer).1.error = wit_shard_archive.error) ∧
    ((parallel_shard_memref wit_cfg_keep true wit_shard_archive 0
        { wit_footer with addr := 5 }).2.2 = false ∧
      (parallel_shard_memref wit_cfg_keep true wit_shard_archive 0
          { wit_footer with addr := 5 }).1.error =
        "Chunk ordinal mismatch: found " ++ toString ({ wit_footer with
            addr := 5 } : trace_entry_t).addr ++ " expected " ++
          toString wit_shard_archive.chunk_ordinal) ∧
    archive_inv wit_shard_archive ∧
    archive_inv (run_shard wit_cfg_keep wit_shard_archive true
        [(0, wit_footer)]).1 :=
  ⟨by decide, by decide,
    (C3_chunk_footer wit_cfg_keep).2.2.2.1 true wit_shard_archive 0 wit_footer
      (by decide) (fun _ => by decide) (by decide) (by decide) (by decide)
      (by decide) (by decide) (by decide),
    (C3_chunk_footer wit_cfg_keep).2.2.1 true wit_shard_archive 0
      { wit_footer with addr := 5 } (by decide) (fun _ => by decide) (by decide)
      (by decide) (by decide) (by decide),
    fun _ => by decide,
    ((C3_chunk_footer wit_cfg_keep).2.2.2.2.2.2 (fun _ => rfl)).1
      [(0, wit_footer)] wit_shard_archive true (fun _ => by decide)⟩

theorem wtes_ok {σ : Type} (cfg : record_filter_cfg σ)
    (hw : ∀ x, cfg.write_ok x = true) :
    ∀ (es : List trace_entry_t) (sh : per_shard_t σ) (s : Bool),
    write_trace_entries cfg sh s es =
      ({ sh with
          output := sh.output ++ es,
          output_entry_count := sh.output_entry_count + es.length }, s, true)
  | [], sh, s => by simp [write_trace_entries]
  | e :: rest, sh, s => by
    have ih := wtes_ok cfg hw rest
        { sh with
          output := sh.output ++ [e],
          output_entry_count := sh.output_entry_count + 1 } s
    simp only [write_trace_entries, write_trace_entry, hw e, if_true, ih]
    simp [Nat.add_comm, Nat.add_assoc, Nat.add_left_comm]

theorem wf_out_cons_nil (e : trace_entry_t) :
    wf_out [e] =
      (if e.type = trace_type_t.TRACE_TYPE_ENCODING then false else true) := by
  by_cases he : e.type = trace_type_t.TRACE_TYPE_ENCODING <;>
    simp [wf_out, he]

theorem wf_out_cons_cons (e e2 : trace_entry_t) (l : List trace_entry_t) :
    wf_out (e :: e2 :: l) =
      (if e.type = trace_type_t.TRACE_TYPE_ENCODING then
        (decide (e2.type = trace_type_t.TRACE_TYPE_ENCODING) ||
          is_any_instr_type e2.type) && wf_out (e2 :: l)
      else wf_out (e2 :: l)) := rfl

theorem wf_out_append :
    ∀ (a b : List trace_entry_t), wf_out a = true → wf_out b = true →
    wf_out (a ++ b) = true
  | [], b, _, hb => hb
  | e :: rest, b, ha, hb => by
    by_cases he : e.type = trace_type_t.TRACE_TYPE_ENCODING
    · cases rest with
      | nil =>
        rw [wf_out_cons_nil, if_pos he] at ha
        exact absurd ha (by simp)
      | cons e2 tl =>
        rw [wf_out_cons_cons, if_pos he, Bool.and_eq_true] at ha
        have h3 := wf_out_append (e2 :: tl) b ha.2 hb
        show wf_out (e :: (e2 :: (tl ++ b))) = true
        rw [wf_out_cons_cons, if_pos he, Bool.and_eq_true]
        exact ⟨ha.1, by simpa using h3⟩
    · cases rest with
      | nil =>
        cases b with
        | nil =>
          rw [List.append_nil]
          rw [wf_out_cons_nil, if_neg he]
        | cons b1 bs =>
          show wf_out (e :: b1 :: bs) = true
          rw [wf_out_cons_cons, if_neg he]
          exact hb
      | cons e2 tl =>
        rw [wf_out_cons_cons, if_neg he] at ha
        have h3 := wf_out_append (e2 :: tl) b ha hb
        show wf_out (e :: (e2 :: (tl ++ b))) = true
        rw [wf_out_cons_cons, if_neg he]
        simpa using h3

theorem wf_out_single {e : trace_entry_t}
    (h : e.type ≠ trace_type_t.TRACE_TYPE_ENCODING) : wf_out [e] = true := by
  rw [wf_out_cons_nil, if_neg h]

theorem wf_out_block :
    ∀ (encs : List trace_entry_t) (e : trace_entry_t),
    (∀ x ∈ encs, x.type = trace_type_t.TRACE_TYPE_ENCODING) →
    is_any_instr_type e.type = true →
    wf_out (encs ++ [e]) = true
  | [], e, _, hi => wf_out_single (instr_ne_encoding hi)
  | x :: rest, e, hall, hi => by
    have hx : x.type = trace_type_t.TRACE_TYPE_ENCODING := hall x (by simp)
    have hrest := wf_out_block rest e (fun y hy => hall y (by simp [hy])) hi
    cases rest with
    | nil =>
      show wf_out (x :: [e]) = true
      rw [wf_out_cons_cons, if_pos hx, Bool.and_eq_true]
      refine ⟨by simp [hi], ?_⟩
      simpa using hrest
    | cons y tl =>
      have hy : y.type = trace_type_t.TRACE_TYPE_ENCODING := hall y (by simp)
      show wf_out (x :: (y :: (tl ++ [e]))) = true
      rw [wf_out_cons_cons, if_pos hx, Bool.and_eq_true]
      refine ⟨by simp [hy], ?_⟩
      simpa using hrest

theorem mem_erase_de {m : List (Nat × List trace_entry_t)} {a : Nat}
    {p : Nat × List trace_entry_t} (h : p ∈ erase_de m a) : p ∈ m :=
  (List.mem_filter.mp h).1

theorem mem_set_de {m : List (Nat × List trace_entry_t)} {a : Nat}
    {v : List trace_entry_t} {p : Nat × List trace_entry_t}
    (h : p ∈ set_de m a v) : p ∈ m ∨ p.2 = v := by
  rcases List.mem_append.mp h with h1 | h1
  · exact Or.inl (mem_erase_de h1)
  · simp at h1
    right
    rw [h1]

theorem lookup_de_all {m : List (Nat × List trace_entry_t)} {a : Nat}
    (h : ∀ p ∈ m, all_encodings p.2) : all_encodings (lookup_de m a) := by
  unfold lookup_de
  split
  · next p hp =>
    exact h p (List.mem_of_find?_eq_some hp)
  · intro e he
    simp at he

theorem tail_dropped_instr_eq {σ : Type} (cfg : record_filter_cfg σ) (s : Bool)
    (sh : per_shard_t σ) (e : trace_entry_t)
    (hi : is_any_instr_type e.type = true) (hslot : sh.last_encoding ≠ []) :
    shard_memref_tail cfg s sh e false =
      ({ sh with
          delayed_encodings :=
            set_de sh.delayed_encodings e.addr sh.last_encoding,
          last_encoding := [] }, s, true) := by
  simp [shard_memref_tail, hi, hslot]

theorem tail_dropped_noslot_eq {σ : Type} (cfg : record_filter_cfg σ) (s : Bool)
    (sh : per_shard_t σ) (e : trace_entry_t) (hslot : sh.last_encoding = []) :
    shard_memref_tail cfg s sh e false = (sh, s, true) := by
  simp [shard_memref_tail, hslot]

theorem tail_encoding_eq {σ : Type} (cfg : record_filter_cfg σ) (s : Bool)
    (sh : per_shard_t σ) (e : trace_entry_t)
    (he : e.type = trace_type_t.TRACE_TYPE_ENCODING) :
    shard_memref_tail cfg s sh e true =
      ({ sh with last_encoding := sh.last_encoding ++ [e] }, s, true) := by
  simp [shard_memref_tail, he]

theorem tail_instr_slot_eq {σ : Type} (cfg : record_filter_cfg σ)
    (hw : ∀ x, cfg.write_ok x = true) (s : Bool) (sh : per_shard_t σ)
    (e : trace_entry_t) (hi : is_any_instr_type e.type = true)
    (hslot : sh.last_encoding ≠ []) :
    shard_memref_tail cfg s sh e true =
      ({ sh with
          output := sh.output ++ sh.last_encoding ++ [e],
          output_entry_count :=
            sh.output_entry_count + sh.last_encoding.length + 1,
          last_encoding := [],
          delayed_encodings := erase_de sh.delayed_encodings e.addr },
        s, true) := by
  have hne := instr_ne_encoding hi
  simp [shard_memref_tail, hi, hne, hslot, wtes_ok cfg hw, write_trace_entry, hw]

theorem tail_instr_delayed_eq {σ : Type} (cfg : record_filter_cfg σ)
    (hw : ∀ x, cfg.write_ok x = true) (s : Bool) (sh : per_shard_t σ)
    (e : trace_entry_t) (hi : is_any_instr_type e.type = true)
    (hslot : sh.last_encoding = [])
    (hlk : lookup_de sh.delayed_encodings e.addr ≠ []) :
    shard_memref_tail cfg s sh e true =
      ({ sh with
          output := sh.output ++ lookup_de sh.delayed_encodings e.addr ++ [e],
          output_entry_count := sh.output_entry_count +
            (lookup_de sh.delayed_encodings e.addr).length + 1,
          delayed_encodings := erase_de sh.delayed_encodings e.addr },
        s, true) := by
  have hne := instr_ne_encoding hi
  simp [shard_memref_tail, hi, hne, hslot, hlk, wtes_ok cfg hw,
    write_trace_entry, hw]

theorem tail_instr_plain_eq {σ : Type} (cfg : record_filter_cfg σ)
    (hw : ∀ x, cfg.write_ok x = true) (s : Bool) (sh : per_shard_t σ)
    (e : trace_entry_t) (hi : is_any_instr_type e.type = true)
    (hslot : sh.last_encoding = [])
    (hlk : lookup_de sh.delayed_encodings e.addr = []) :
    shard_memref_tail cfg s sh e true =
      ({ sh with
          output := sh.output ++ [e],
          output_entry_count := sh.output_entry_count + 1 }, s, true) := by
  have hne := instr_ne_encoding hi
  simp [shard_memref_tail, hi, hne, hslot, hlk, write_trace_entry, hw]

theorem tail_wf {σ : Type} (cfg : record_filter_cfg σ)
    (hw : ∀ x, cfg.write_ok x = true) (s : Bool) (sh : per_shard_t σ)
    (e : trace_entry_t) (out : Bool) (h : wf_shard sh) :
    wf_shard (shard_memref_tail cfg s sh e out).1 := by
  obtain ⟨h1, h2, h3⟩ := h
  by_cases c1 : out = false
  · subst c1
    by_cases c2 : is_any_instr_type e.type = true
    · by_cases c3 : sh.last_encoding = []
      · rw [tail_dropped_noslot_eq cfg s sh e c3]
        exact ⟨h1, h2, h3⟩
      · rw [tail_dropped_instr_eq cfg s sh e c2 c3]
        refine ⟨?_, ?_, h3⟩
        · intro x hx
          simp at hx
        · intro p hp
          rcases mem_set_de hp with hp1 | hp1
          · exact h2 p hp1
          · rw [hp1]
            exact h1
    · by_cases c3 : sh.last_encoding = []
      · rw [tail_dropped_noslot_eq cfg s sh e c3]
        exact ⟨h1, h2, h3⟩
      · have c2f : is_any_instr_type e.type = false := by simpa using c2
        rw [tail_dropped_noninstr_eq cfg s sh e c2f]
        exact ⟨h1, h2, h3⟩
  · have c1t : out = true := by simpa using c1
    subst c1t
    by_cases c4 : e.type = trace_type_t.TRACE_TYPE_ENCODING
    · rw [tail_encoding_eq cfg s sh e c4]
      refine ⟨?_, h2, h3⟩
      intro x hx
      rcases List.mem_append.mp hx with hx1 | hx1
      · exact h1 x hx1
      · simp at hx1
        rw [hx1]
        exact c4
    · by_cases c5 : is_any_instr_type e.type = true
      · by_cases c6 : sh.last_encoding = []
        · by_cases c7 : lookup_de sh.delayed_encodings e.addr = []
          · rw [tail_instr_plain_eq cfg hw s sh e c5 c6 c7]
            refine ⟨h1, h2, ?_⟩
            exact wf_out_append _ _ h3 (wf_out_single (instr_ne_encoding c5))
          · rw [tail_instr_delayed_eq cfg hw s sh e c5 c6 c7]
            refine ⟨h1, ?_, ?_⟩
            · intro p hp
              exact h2 p (mem_erase_de hp)
            · rw [List.append_assoc]
              exact wf_out_append _ _ h3
                (wf_out_block _ e (lookup_de_all h2) c5)
        · rw [tail_instr_slot_eq cfg hw s sh e c5 c6]
          refine ⟨?_, ?_, ?_⟩
          · intro x hx
            simp at hx
          · intro p hp
            exact h2 p (mem_erase_de hp)
          · rw [List.append_assoc]
            exact wf_out_append _ _ h3 (wf_out_block _ e h1 c5)
      · have c5f : is_any_instr_type e.type = false := by simpa using c5
        rw [tail_write_eq cfg s sh e c4 c5f (hw e)]
        exact ⟨h1, h2, wf_out_append _ _ h3 (wf_out_single c4)⟩

theorem marker_wf {σ : Type} (cfg : record_filter_cfg σ)
    (hw : ∀ x, cfg.write_ok x = true) (s : Bool) (sh : per_shard_t σ)
    (e : trace_entry_t) (out : Bool) (h : wf_shard sh) :
    wf_shard (shard_memref_marker cfg s sh e out).1 := by
  obtain ⟨h1, h2, h3⟩ := h
  simp only [shard_memref_marker]
  by_cases hm : e.type = trace_type_t.TRACE_TYPE_MARKER
  · rw [if_pos hm]
    by_cases h9 : e.size = TRACE_MARKER_TYPE_FILETYPE
    · rw [if_pos h9]
      exact tail_wf cfg hw s sh _ out ⟨h1, h2, h3⟩
    · rw [if_neg h9]
      by_cases h21 : e.size = TRACE_MARKER_TYPE_CHUNK_FOOTER
      · rw [if_pos h21]
        by_cases hout : out = false
        · rw [if_pos hout]
          exact ⟨h1, h2, h3⟩
        · rw [if_neg hout]
          by_cases harch : sh.has_archive = false
          · rw [if_pos harch]
            exact ⟨h1, h2, h3⟩
          · rw [if_neg harch]
            by_cases haddr : e.addr ≠ sh.chunk_ordinal
            · rw [if_pos haddr]
              exact ⟨h1, h2, h3⟩
            · rw [if_neg haddr]
              have hmne : e.type ≠ trace_type_t.TRACE_TYPE_ENCODING := by
                rw [hm]; decide
              simp only [write_trace_entry, hw e, if_true, open_new_chunk]
              split_ifs <;>
                exact ⟨h1, h2, wf_out_append _ _ h3 (wf_out_single hmne)⟩
      · rw [if_neg h21]
        by_cases h22 : e.size = TRACE_MARKER_TYPE_RECORD_ORDINAL
        · rw [if_pos h22]
          by_cases hout : out = false
          · rw [if_pos hout]
            exact ⟨h1, h2, h3⟩
          · rw [if_neg hout]
            exact tail_wf cfg hw s _ _ out ⟨h1, h2, h3⟩
        · rw [if_neg h22]
          exact tail_wf cfg hw s sh e out ⟨h1, h2, h3⟩
  · rw [if_neg hm]
    exact tail_wf cfg hw s sh e out ⟨h1, h2, h3⟩

theorem body_wf {σ : Type} (cfg : record_filter_cfg σ)
    (hw : ∀ x, cfg.write_ok x = true) (s : Bool) (sh : per_shard_t σ)
    (e : trace_entry_t) (rc : Nat) (h : wf_shard sh) :
    wf_shard (shard_memref_body cfg s sh e rc).1 := by
  obtain ⟨h1, h2, h3⟩ := h
  simp only [shard_memref_body]
  split_ifs <;> first
    | exact ⟨h1, h2, h3⟩
    | exact marker_wf cfg hw _ _ e _ ⟨h1, h2, h3⟩

theorem step_wf {σ : Type} (cfg : record_filter_cfg σ)
    (hw : ∀ x, cfg.write_ok x = true) (s : Bool) (sh : per_shard_t σ)
    (ts : Nat) (e : trace_entry_t) (h : wf_shard sh) :
    wf_shard (parallel_shard_memref cfg s sh ts e).1 := by
  obtain ⟨h1, h2, h3⟩ := h
  have hbne : filter_boundary_entry.type ≠ trace_type_t.TRACE_TYPE_ENCODING := by
    decide
  by_cases hfire : sh.enabled = true ∧ cfg.stop_timestamp ≠ 0 ∧
      cfg.stop_timestamp ≤ ts
  · simp only [parallel_shard_memref]
    rw [if_pos (by simpa using hfire)]
    simp only [write_trace_entry, hw filter_boundary_entry, if_true]
    simp only [Bool.true_eq_false, if_false]
    exact body_wf cfg hw _ _ e _
      ⟨h1, h2, wf_out_append _ _ h3 (wf_out_single hbne)⟩
  · rw [gate_nofire_eq cfg s sh ts e hfire]
    exact body_wf cfg hw _ _ e _ ⟨h1, h2, h3⟩

theorem run_wf {σ : Type} (cfg : record_filter_cfg σ)
    (hw : ∀ x, cfg.write_ok x = true) :
    ∀ (inputs : List (Nat × trace_entry_t)) (sh : per_shard_t σ) (s : Bool),
    wf_shard sh → wf_shard (run_shard cfg sh s inputs).1
  | [], _, _, h => h
  | (ts, e) :: rest, sh, s, h => by
    simp only [run_shard]
    exact run_wf cfg hw rest _ _ (step_wf cfg hw s sh ts e h)

theorem wf_out_tail :
    ∀ (e : trace_entry_t) (rest : List trace_entry_t),
    wf_out (e :: rest) = true → wf_out rest = true
  | _, [], _ => rfl
  | e, e2 :: tl, h => by
    by_cases he : e.type = trace_type_t.TRACE_TYPE_ENCODING
    · rw [wf_out_cons_cons, if_pos he, Bool.and_eq_true] at h
      exact h.2
    · rw [wf_out_cons_cons, if_neg he] at h
      exact h

theorem wf_head_block :
    ∀ (l : List trace_entry_t), wf_out l = true →
    ∀ h0 : 0 < l.length,
    (l.get ⟨0, h0⟩).type = trace_type_t.TRACE_TYPE_ENCODING →
    ∃ j, ∃ hj : j < l.length, 0 < j ∧
      is_any_instr_type (l.get ⟨j, hj⟩).type = true ∧
      ∀ k, ∀ hk : k < l.length, k < j →
        (l.get ⟨k, hk⟩).type = trace_type_t.TRACE_TYPE_ENCODING
  | [], _, h0, _ => absurd h0 (by simp)
  | [e], hwf, h0, henc => by
    have henc0 : e.type = trace_type_t.TRACE_TYPE_ENCODING := henc
    rw [wf_out_cons_nil, if_pos henc0] at hwf
    exact absurd hwf (by simp)
  | e :: e2 :: tl, hwf, h0, henc => by
    have henc0 : e.type = trace_type_t.TRACE_TYPE_ENCODING := henc
    rw [wf_out_cons_cons, if_pos henc0, Bool.and_eq_true] at hwf
    by_cases h2 : e2.type = trace_type_t.TRACE_TYPE_ENCODING
    · obtain ⟨j, hj, hpos, hinstr, hall⟩ :=
        wf_head_block (e2 :: tl) hwf.2 (by simp) h2
      refine ⟨j + 1, by simpa using hj, by omega, hinstr, ?_⟩
      intro k hk hkj
      cases k with
      | zero => exact henc0
      | succ k2 => exact hall k2 (by simpa using hk) (by omega)
    · have hinstr : is_any_instr_type e2.type = true := by
        have h1 := hwf.1
        simp [h2] at h1
        exact h1
      refine ⟨1, by simp, by omega, hinstr, ?_⟩
      intro k hk hkj
      interval_cases k
      exact henc0

theorem wf_consumed :
    ∀ (l : List trace_entry_t), wf_out l = true → encoding_consumed l := by
  intro l
  induction l with
  | nil =>
    intro _ i hi
    exact absurd hi (by simp)
  | cons e rest ih =>
    intro hwf i hi henc
    cases i with
    | zero =>
      obtain ⟨j, hj, hpos, hinstr, hall⟩ :=
        wf_head_block (e :: rest) hwf hi henc
      exact ⟨j, hj, hpos, hinstr, fun k hk _ hkj => hall k hk hkj⟩
    | succ i2 =>
      obtain ⟨j, hj, hij, hinstr, hall⟩ :=
        ih (wf_out_tail e rest hwf) i2 (by simpa using hi) henc
      refine ⟨j + 1, by simpa using hj, by omega, hinstr, ?_⟩
      intro k hk hik hkj
      cases k with
      | zero => omega
      | succ k2 => exact hall k2 (by simpa using hk) (by omega) (by omega)

theorem step_kept_instr_eq {σ : Type} (cfg : record_filter_cfg σ)
    (hw : ∀ x, cfg.write_ok x = true) (s : Bool) (sh : per_shard_t σ)
    (ts : Nat) (e : trace_entry_t)
    (hgate : ¬(sh.enabled = true ∧ cfg.stop_timestamp ≠ 0 ∧ cfg.stop_timestamp ≤ ts))
    (hinstr : is_any_instr_type e.type = true)
    (hkeep : sh.enabled = true →
      (run_filters e cfg.filters sh.filter_shard_data).1 = true) :
    (parallel_shard_memref cfg s sh ts e).1.output =
      sh.output ++
        (if sh.last_encoding = [] then lookup_de sh.delayed_encodings e.addr
          else sh.last_encoding) ++ [e] ∧
    (parallel_shard_memref cfg s sh ts e).1.last_encoding = [] ∧
    (parallel_shard_memref cfg s sh ts e).1.delayed_encodings =
      (if sh.last_encoding = [] ∧ lookup_de sh.delayed_encodings e.addr = []
        then sh.delayed_encodings
        else erase_de sh.delayed_encodings e.addr) ∧
    (parallel_shard_memref cfg s sh ts e).2.2 = true := by
  rw [step_kept_eq cfg s sh ts e hgate hkeep]
  rw [marker_nonmarker_eq cfg s _ e true (instr_ne_marker hinstr)]
  have hf := kept_mid_fields cfg
      { sh with input_entry_count := sh.input_entry_count + 1 } e
  have hle : (kept_mid cfg
      { sh with input_entry_count := sh.input_entry_count + 1 } e).last_encoding =
      sh.last_encoding := hf.2.2.2.2.2.2.2.2.1
  have hde : (kept_mid cfg
      { sh with input_entry_count := sh.input_entry_count + 1 }
        e).delayed_encodings = sh.delayed_encodings := hf.2.2.2.2.2.2.2.2.2.1
  have hou : (kept_mid cfg
      { sh with input_entry_count := sh.input_entry_count + 1 } e).output =
      sh.output := hf.2.2.2.2.2.2.2.2.2.2.1
  by_cases c6 : sh.last_encoding = []
  · by_cases c7 : lookup_de sh.delayed_encodings e.addr = []
    · rw [tail_instr_plain_eq cfg hw s
          (kept_mid cfg { sh with input_entry_count := sh.input_entry_count + 1 } e)
          e hinstr (hle.trans c6) (by rw [hde]; exact c7)]
      simp only [hle, hde, hou]
      simp [c6, c7]
    · rw [tail_instr_delayed_eq cfg hw s
          (kept_mid cfg { sh with input_entry_count := sh.input_entry_count + 1 } e)
          e hinstr (hle.trans c6) (by rw [hde]; exact c7)]
      simp only [hle, hde, hou]
      simp [c6, c7]
  · rw [tail_instr_slot_eq cfg hw s
        (kept_mid cfg { sh with input_entry_count := sh.input_entry_count + 1 } e)
        e hinstr (by rw [hle]; exact c6)]
    simp only [hle, hde, hou]
    simp [c6]

/-- C9 witness: the concrete two-failing-filters initialization retains the
last message, and a dropped footer overwrites a concrete pre-existing shard
error. -/
theorem C9_error_overwrite_witness :
    ((parallel_shard_init_stream wit_cfg_keep "t" false false
        [((), "A"), ((), "B")] true).1.error =
      (if ([((), "A"), ((), "B")].map
            (fun fi : Unit × String => fi.2)).all (fun x => x == "") then ""
        else "Failure in initializing filter function " ++
          last_nonempty ([((), "A"), ((), "B")].map
            (fun fi : Unit × String => fi.2)))) ∧
    wit_shard_err.error = "previous error" ∧
    (parallel_shard_memref wit_cfg_drop true wit_shard_err 0 wit_footer).1.error =
      "Removing chunk footers is not supported" :=
  ⟨((C9_error_overwrite wit_cfg_keep).1 "t" [((), "A"), ((), "B")] true).1,
    by decide,
    (C9_error_overwrite wit_cfg_drop).2 true wit_shard_err 0 wit_footer
      (by decide) (by decide) (by decide) (by decide) (by decide)⟩

/-- C1: the encoding cache guarantee, with all sink writes succeeding:
(i) a kept instruction-like record is written immediately preceded by
exactly the encoding records currently known for its address — the pending
slot when an encoding immediately preceded it, otherwise the saved
delayed-encodings entry for its address — with the pending slot left empty
and the consumed delayed entry erased; (ii) processing any per-shard record
sequence preserves the encoding-cache invariant, in particular the output
remains encoding-consistent; (iii) encoding consistency means positionally
that every emitted encoding record is followed, through encoding records
only, by an instruction-like record: its unique surviving consumer. -/
theorem C1_encoding_cache {σ : Type} (cfg : record_filter_cfg σ)
    (hw : ∀ x, cfg.write_ok x = true) :
    (∀ (s : Bool) (sh : per_shard_t σ) (ts : Nat) (e : trace_entry_t),
      ¬(sh.enabled = true ∧ cfg.stop_timestamp ≠ 0 ∧ cfg.stop_timestamp ≤ ts) →
      is_any_instr_type e.type = true →
      (sh.enabled = true →
        (run_filters e cfg.filters sh.filter_shard_data).1 = true) →
      (parallel_shard_memref cfg s sh ts e).1.output =
        sh.output ++
          (if sh.last_encoding = [] then lookup_de sh.delayed_encodings e.addr
            else sh.last_encoding) ++ [e] ∧
      (parallel_shard_memref cfg s sh ts e).1.last_encoding = [] ∧
      (parallel_shard_memref cfg s sh ts e).1.delayed_encodings =
        (if sh.last_encoding = [] ∧ lookup_de sh.delayed_encodings e.addr = []
          then sh.delayed_encodings
          else erase_de sh.delayed_encodings e.addr) ∧
      (parallel_shard_memref cfg s sh ts e).2.2 = true) ∧
    (∀ (inputs : List (Nat × trace_entry_t)) (sh : per_shard_t σ) (s : Bool),
      wf_shard sh → wf_shard (run_shard cfg sh s inputs).1) ∧
    (∀ out : List trace_entry_t, wf_out out = true → encoding_consumed out) := by
  refine ⟨?_, ?_, ?_⟩
  · intro s sh ts e hgate hinstr hkeep
    exact step_kept_instr_eq cfg hw s sh ts e hgate hinstr hkeep
  · intro inputs sh s h
    exact run_wf cfg hw inputs sh s h
  · intro out h
    exact wf_consumed out h

/-- C1 witness: a concrete kept instruction with a pending encoding is
written right after that encoding; a concrete run from a fresh shard keeps
the invariant; and the concrete two-record output is encoding-consistent
with a consumer for its encoding. -/
theorem C1_encoding_cache_witness :
    is_any_instr_type wit_instr.type = true ∧
    ((parallel_shard_memref wit_cfg_keep true wit_shard_slot 0
        wit_instr).1.output =
      wit_shard_slot.output ++
        (if wit_shard_slot.last_encoding = [] then
            lookup_de wit_shard_slot.delayed_encodings wit_instr.addr
          else wit_shard_slot.last_encoding) ++ [wit_instr] ∧
      (parallel_shard_memref wit_cfg_keep true wit_shard_slot 0
          wit_instr).1.last_encoding = [] ∧
      (parallel_shard_memref wit_cfg_keep true wit_shard_slot 0
          wit_instr).1.delayed_encodings =
        (if wit_shard_slot.last_encoding = [] ∧
            lookup_de wit_shard_slot.delayed_encodings wit_instr.addr = []
          then wit_shard_slot.delayed_encodings
          else erase_de wit_shard_slot.delayed_encodings wit_instr.addr) ∧
      (parallel_shard_memref wit_cfg_keep true wit_shard_slot 0 wit_instr).2.2 =
        true) ∧
    wf_shard (run_shard wit_cfg_keep wit_shard true
        [(0, wit_enc), (0, wit_instr)]).1 ∧
    (wf_out [wit_enc, wit_instr] = true ∧
      encoding_consumed [wit_enc, wit_instr]) :=
  ⟨by decide,
    (C1_encoding_cache wit_cfg_keep (fun _ => rfl)).1 true wit_shard_slot 0
      wit_instr (by decide) (by decide) (fun _ => by decide),
    (C1_encoding_cache wit_cfg_keep (fun _ => rfl)).2.1
      [(0, wit_enc), (0, wit_instr)] wit_shard true
      ⟨fun e he => absurd he (List.not_mem_nil e),
        fun p hp => absurd hp (List.not_mem_nil p), rfl⟩,
    by decide,
    (C1_encoding_cache wit_cfg_keep (fun _ => rfl)).2.2 [wit_enc, wit_instr]
      (by decide)⟩

end drmemtrace
